import Mathlib

/-!
# zybo-axi-dma: the DMA proxy driver and its AXI-DMA channel controller

A shallow embedding of `sw/driver/axi_dma_iface.{h,c}` and of the file
operations of `sw/driver/dma_proxy_driver.c`.

* Driver globals, the session records and the two kinds of mutex are one
  explicit state `Driver`, threaded through every function.
* Everything the code does to the outside world (MMIO accesses, mutex
  operations, thread creation, coherent allocations) is appended to
  `Driver.log` in program order.
* Answers of the outside world (values of status registers, results of
  allocators, answers of `kthread_should_stop`) are explicit arguments.
  A polling loop consumes a list of answers; when the list is used up before
  the loop condition turns false the call has not returned (`Outcome.spinning`).
* A `mutex_lock` on a mutex that is held does not return (`Outcome.blocked`).
* Calls follow one another in `Sys` (open, close, Allocate, Free on the open
  file descriptions) and in `Driver.acts` (start and receive-sync ioctls and
  runs of the receive threads); each call is one step.

The target is the Zynq-7000 (32-bit ARM): `size_t`, `unsigned long`,
`dma_addr_t` and pointers are 32 bits wide.
-/

namespace ZyboAxiDma

/-- Kernel or bus address; `0` is `NULL`. -/
abbrev Ptr := Nat

/-! ## Kernel constants (linux/errno.h, linux/err.h) -/

def EIO : Int := 5
def EBADF : Int := 9
def ENOMEM : Int := 12
def EFAULT : Int := 14
def EBUSY : Int := 16
def EINVAL : Int := 22
def MAX_ERRNO : Nat := 4095

/-- Number of values of an `unsigned long` (and of a pointer) on the target. -/
def ULONG_RANGE : Nat := 2 ^ 32

/-- Kernel `IS_ERR`: the pointer lies in the last `MAX_ERRNO` addresses. -/
def IS_ERR (p : Ptr) : Bool := decide (ULONG_RANGE - MAX_ERRNO ≤ p % ULONG_RANGE)

/-- Kernel `PTR_ERR`: the pointer read as a signed `long`. -/
def PTR_ERR (p : Ptr) : Int :=
  if p % ULONG_RANGE < 2 ^ 31 then ((p % ULONG_RANGE : Nat) : Int)
  else ((p % ULONG_RANGE : Nat) : Int) - ULONG_RANGE

/-! ## dma_proxy_driver.h -/

def MAX_INST : Nat := 4
def MAX_BUF_SZ : Nat := 8192

/-- Encoding `_IOC(dir, type, nr, size)` of linux/ioctl.h. -/
def IOC (dir type nr size : Nat) : Nat := dir <<< 30 ||| size <<< 16 ||| type <<< 8 ||| nr

def DMAPROXY_IOCTMAGIC : Nat := 0x89
def DMAPROXY_IOCTCBUF : Nat := IOC 1 DMAPROXY_IOCTMAGIC 0 4
def DMAPROXY_IOCTRBUF : Nat := IOC 0 DMAPROXY_IOCTMAGIC 1 0
def DMAPROXY_IOCTSTART : Nat := IOC 1 DMAPROXY_IOCTMAGIC 2 4
def DMAPROXY_IOCTRXSYNC : Nat := IOC 0 DMAPROXY_IOCTMAGIC 4 0

/-! ## axi_dma_iface.h: register map -/

def AXI_MM2S_DMACR : Nat := 0x00
def AXI_MM2S_DMACR_RS : Nat := 0
def AXI_MM2S_DMACR_Reset : Nat := 2
def AXI_MM2S_DMACR_IOC_IrqEn : Nat := 12
def AXI_MM2S_DMACR_Dly_IrqEn : Nat := 13
def AXI_MM2S_DMACR_Err_IrqEn : Nat := 14
def AXI_MM2S_DMASR : Nat := 0x04
def AXI_MM2S_DMASR_Idle : Nat := 1
def AXI_MM2S_DMASR_IOC_Irq : Nat := 12
def AXI_MM2S_SA : Nat := 0x18
def AXI_MM2S_LENGTH : Nat := 0x28
def AXI_S2MM_DMACR : Nat := 0x30
def AXI_S2MM_DMACR_RS : Nat := 0
def AXI_S2MM_DMACR_Reset : Nat := 2
def AXI_S2MM_DMACR_IOC_IRqEn : Nat := 12
def AXI_S2MM_DMACR_Dly_IrqEn : Nat := 13
def AXI_S2MM_DMACR_Err_IrqEn : Nat := 14
def AXI_S2MM_DMASR : Nat := 0x34
def AXI_S2MM_DMASR_Idle : Nat := 1
def AXI_S2MM_DMASR_IOC_Irq : Nat := 12
def AXI_S2MM_DA : Nat := 0x48
def AXI_S2MM_LENGTH : Nat := 0x58

/-! ## types.h -/

/-- The mutexes of the driver: `ip_info.hw_lock` and the `rx_lock` of the
session record at address `instp`. -/
inductive MutexRef where
  | hw_lock
  | rx_lock (instp : Ptr)
deriving DecidableEq, Repr

/-- Session record `struct dma_proxy_inst`; `rx_lock = true` means held. -/
structure dma_proxy_inst where
  buf_sz : Nat
  dma_buf_phys : Nat
  dma_buf_virt : Ptr
  rx_lock : Bool
deriving DecidableEq, Repr

/-- The fields of `struct core_info` the file operations use; `hw_lock = true`
means held. -/
structure core_info where
  base_addr : Ptr
  hw_lock : Bool
deriving DecidableEq, Repr

/-- Argument of the receive synchronisation thread, `struct rx_sync_dat`. -/
structure rx_sync_dat where
  hw_lock : MutexRef
  instp : Ptr
  axi_addr : Ptr
deriving DecidableEq, Repr

/-- The one field of `struct file` the driver uses. -/
structure file where
  private_data : Ptr
deriving DecidableEq, Repr

/-! ## State, effects, outcomes -/

/-- Effects on the outside world, in program order. -/
inductive Event where
  | mutex_lock (m : MutexRef)
  | mutex_unlock (m : MutexRef)
  | iowrite32 (val : Nat) (addr : Nat)
  | ioread32 (addr : Nat) (val : Nat)
  | kthread_run (data : rx_sync_dat)
  | kthread_stop (task : Ptr)
  | dma_alloc_coherent (sz : Nat) (virt : Ptr) (phys : Nat)
  | dma_free_coherent (sz : Nat) (virt : Ptr) (phys : Nat)
  | kzfree_inst (instp : Ptr)
  | kzfree_sync (data : rx_sync_dat)
deriving DecidableEq, Repr

/-- How a call ends, as far as the supplied answers of the outside world go. -/
inductive Outcome where
  | ret (code : Int)
  | blocked (m : MutexRef)
  | spinning
  | oops
deriving DecidableEq, Repr

/-- Globals of the driver (`ip_info`, `num_open`, `instances`,
`sync_rx_thread`), the kernel memory holding the session records, and the
effects so far. -/
structure Driver where
  ip_info : core_info
  num_open : Int
  instances : List Ptr
  sync_rx_thread : Ptr
  mem : Ptr → dma_proxy_inst
  log : List Event

def Driver.emit (d : Driver) (e : Event) : Driver :=
  { d with log := d.log ++ [e] }

def Driver.store (d : Driver) (p : Ptr) (v : dma_proxy_inst) : Driver :=
  { d with mem := fun q => if q = p then v else d.mem q }

def mutex_is_locked (d : Driver) : MutexRef → Bool
  | .hw_lock => d.ip_info.hw_lock
  | .rx_lock p => (d.mem p).rx_lock

def mutex_set (d : Driver) (m : MutexRef) (b : Bool) : Driver :=
  match m with
  | .hw_lock => { d with ip_info := { d.ip_info with hw_lock := b } }
  | .rx_lock p => d.store p { d.mem p with rx_lock := b }

/-- Kernel `mutex_lock`: `none` when the mutex is held (the caller sleeps). -/
def mutex_lock (d : Driver) (m : MutexRef) : Option Driver :=
  if mutex_is_locked d m then none
  else some ((mutex_set d m true).emit (.mutex_lock m))

/-- Kernel `mutex_unlock`. -/
def mutex_unlock (d : Driver) (m : MutexRef) : Driver :=
  (mutex_set d m false).emit (.mutex_unlock m)

/-! ## axi_dma_iface.h: MMIO wrappers -/

def reg_wr (d : Driver) (val : Nat) (mm_addr : Ptr) (reg_num : Nat) : Driver :=
  if mm_addr ≠ 0 then d.emit (.iowrite32 val (mm_addr + reg_num)) else d

/-- Wrapper `reg_rd`: `hw` is the value `ioread32` yields; with a null handle
nothing is read and the result is 0. -/
def reg_rd (d : Driver) (mm_addr : Ptr) (reg_num : Nat) (hw : Nat) : Driver × Nat :=
  if mm_addr ≠ 0 then (d.emit (.ioread32 (mm_addr + reg_num) hw), hw) else (d, 0)

/-! ## axi_dma_iface.c -/

def axi_dma_reset (d : Driver) (axi_addr : Ptr) : Driver × Int :=
  if axi_addr = 0 then (d, - EINVAL)
  else
    let d := reg_wr d (1 <<< AXI_MM2S_DMACR_Reset) axi_addr AXI_MM2S_DMACR
    let d := reg_wr d (1 <<< AXI_S2MM_DMACR_Reset) axi_addr AXI_S2MM_DMACR
    (d, 0)

def axi_dma_halt (d : Driver) (axi_addr : Ptr) : Driver × Int :=
  if axi_addr = 0 then (d, - EINVAL)
  else
    let d := reg_wr d 0 axi_addr AXI_MM2S_DMACR
    let d := reg_wr d 0 axi_addr AXI_S2MM_DMACR
    (d, 0)

def axi_dma_setup_tx (d : Driver) (axi_addr : Ptr) (src : Nat) : Driver × Int :=
  if axi_addr = 0 ∨ src = 0 then (d, - EINVAL)
  else
    let d := reg_wr d (src % 2 ^ 32) axi_addr AXI_MM2S_SA
    let reg_val := 0
    let reg_val := reg_val ||| (1 <<< AXI_MM2S_DMACR_RS)
    let reg_val := reg_val ||| (1 <<< AXI_MM2S_DMACR_IOC_IrqEn)
    let reg_val := reg_val ||| (1 <<< AXI_MM2S_DMACR_Dly_IrqEn)
    let reg_val := reg_val ||| (1 <<< AXI_MM2S_DMACR_Err_IrqEn)
    let d := reg_wr d reg_val axi_addr AXI_MM2S_DMACR
    (d, 0)

def axi_dma_start_tx (d : Driver) (axi_addr : Ptr) (sz : Nat) : Driver × Int :=
  let d := reg_wr d (sz % 2 ^ 32) axi_addr AXI_MM2S_LENGTH
  (d, 0)

def axi_dma_setup_rx (d : Driver) (axi_addr : Ptr) (dest : Nat) (sz : Nat) : Driver × Int :=
  if axi_addr = 0 ∨ dest = 0 then (d, - EINVAL)
  else
    let d := reg_wr d (dest % 2 ^ 32) axi_addr AXI_S2MM_DA
    let reg_val := 0
    let reg_val := reg_val ||| (1 <<< AXI_S2MM_DMACR_RS)
    let reg_val := reg_val ||| (1 <<< AXI_S2MM_DMACR_IOC_IRqEn)
    let reg_val := reg_val ||| (1 <<< AXI_S2MM_DMACR_Dly_IrqEn)
    let reg_val := reg_val ||| (1 <<< AXI_S2MM_DMACR_Err_IrqEn)
    let d := reg_wr d reg_val axi_addr AXI_S2MM_DMACR
    let d := reg_wr d (sz % 2 ^ 32) axi_addr AXI_S2MM_LENGTH
    (d, 0)

/-- Loop condition of `axi_dma_sync_tx`:
`!(reg_val & (1 << Idle)) || !(reg_val & (1 << IOC_Irq))`. -/
def tx_busy (reg_val : Nat) : Bool :=
  (reg_val &&& (1 <<< AXI_MM2S_DMASR_Idle) == 0)
    || (reg_val &&& (1 <<< AXI_MM2S_DMASR_IOC_Irq) == 0)

/-- The `while` loop of `axi_dma_sync_tx`, entered with the last value read;
`status` holds the values of the following reads of the status register. -/
def sync_tx_loop (axi_addr : Ptr) : Driver → Nat → List Nat → Driver × Outcome
  | d, reg_val, [] => if tx_busy reg_val then (d, .spinning) else (d, .ret 0)
  | d, reg_val, hw :: status =>
    if tx_busy reg_val then
      let r := reg_rd d axi_addr AXI_MM2S_DMASR hw
      sync_tx_loop axi_addr r.1 r.2 status
    else (d, .ret 0)

def axi_dma_sync_tx (d : Driver) (axi_addr : Ptr) (status : List Nat) : Driver × Outcome :=
  if axi_addr = 0 then (d, .ret (- EINVAL))
  else
    match status with
    | [] => (d, .spinning)
    | hw :: status =>
      let r := reg_rd d axi_addr AXI_MM2S_DMASR hw
      sync_tx_loop axi_addr r.1 r.2 status

/-- The status part of the first loop condition of `axi_dma_sync_rx`. -/
def rx_busy (reg_val : Nat) : Bool :=
  (reg_val &&& (1 <<< AXI_S2MM_DMASR_Idle) == 0)
    || (reg_val &&& (1 <<< AXI_S2MM_DMASR_IOC_Irq) == 0)

/-- The second loop of `axi_dma_sync_rx`, `while (!kthread_should_stop());`
followed by `return 0`; `stops` holds the answers of the following calls of
`kthread_should_stop`. -/
def sync_rx_idle (d : Driver) : List Bool → Driver × Outcome
  | [] => (d, .spinning)
  | true :: _ => (d, .ret 0)
  | false :: stops => sync_rx_idle d stops

/-- What `axi_dma_sync_rx` does after its first loop. -/
def sync_rx_finish (d : Driver) (sync : rx_sync_dat) (stops : List Bool) : Driver × Outcome :=
  let d := mutex_unlock d sync.hw_lock
  let d := mutex_unlock d (.rx_lock sync.instp)
  let d := d.emit (.kzfree_sync sync)
  sync_rx_idle d stops

/-- The first loop of `axi_dma_sync_rx`, entered with the last value read, and
what follows it. `kthread_should_stop` is called only when the status part of
the condition holds (`&&` evaluates left to right); with a null `axi_addr`
`reg_rd` reads nothing, so `status` is not consumed. -/
def sync_rx_loop (sync : rx_sync_dat) : Driver → Nat → List Nat → List Bool → Driver × Outcome
  | d, reg_val, _, [] =>
    if rx_busy reg_val then (d, .spinning) else sync_rx_finish d sync []
  | d, reg_val, status, stop :: stops =>
    if rx_busy reg_val then
      if stop then sync_rx_finish d sync stops
      else if sync.axi_addr = 0 then
        let r := reg_rd d sync.axi_addr AXI_S2MM_DMASR 0
        sync_rx_loop sync r.1 r.2 status stops
      else
        match status with
        | [] => (d, .spinning)
        | hw :: status =>
          let r := reg_rd d sync.axi_addr AXI_S2MM_DMASR hw
          sync_rx_loop sync r.1 r.2 status stops
    else sync_rx_finish d sync (stop :: stops)

/-- Thread function `axi_dma_sync_rx`; `data = none` is a null argument. -/
def axi_dma_sync_rx (d : Driver) (data : Option rx_sync_dat) (status : List Nat)
    (stops : List Bool) : Driver × Outcome :=
  match data with
  | none => (d, .ret (- EINVAL))
  | some sync =>
    if sync.axi_addr = 0 then
      let r := reg_rd d sync.axi_addr AXI_S2MM_DMASR 0
      sync_rx_loop sync r.1 r.2 status stops
    else
      match status with
      | [] => (d, .spinning)
      | hw :: status =>
        let r := reg_rd d sync.axi_addr AXI_S2MM_DMASR hw
        sync_rx_loop sync r.1 r.2 status stops

/-! ## dma_proxy_driver.c -/

/-- Argument of an ioctl as the driver sees it: a null pointer, a user pointer
from which `copy_from_user` cannot read, or a user pointer to a `size_t`. -/
inductive UserArg where
  | null
  | fault
  | ptr (sz : Nat)
deriving DecidableEq, Repr

/-- Answers of the kernel and of the engine during one ioctl. -/
structure Env where
  /-- Values of the successive reads of the MM2S status register. -/
  mm2s_status : List Nat
  /-- Whether `kzalloc` hands out the `rx_sync_dat`. -/
  kzalloc_sync : Bool
  /-- Result of `kthread_run`: a task pointer or an `ERR_PTR`. -/
  task : Ptr
  /-- Result of `dma_alloc_coherent`. -/
  dma_virt : Ptr
  /-- Bus address `dma_alloc_coherent` stores through its handle argument. -/
  dma_phys : Nat
deriving DecidableEq, Repr

def release_inst (d : Driver) (instp : Ptr) : Driver :=
  if instp ≠ 0 ∧ (d.mem instp).dma_buf_virt ≠ 0 then
    let d := d.emit (.dma_free_coherent (d.mem instp).buf_sz (d.mem instp).dma_buf_virt
      (d.mem instp).dma_buf_phys)
    d.emit (.kzfree_inst instp)
  else d

/-- The tracking loop of `dma_proxy_open`: the first null slot takes `instp`. -/
def track (instp : Ptr) : List Ptr → List Ptr
  | [] => []
  | slot :: rest => if slot = 0 then instp :: rest else slot :: track instp rest

/-- The loop of `dma_proxy_release`: the first slot holding `instp` is cleared. -/
def untrack (instp : Ptr) : List Ptr → List Ptr
  | [] => []
  | slot :: rest => if slot = instp then 0 :: rest else slot :: untrack instp rest

/-- File operation `dma_proxy_open`; `kzalloc` is the result of the allocation of the
session record (0 when it fails). -/
def dma_proxy_open (d : Driver) (filep : file) (kzalloc : Ptr) : Driver × file × Int :=
  if d.num_open < MAX_INST then
    let instp := kzalloc
    if instp = 0 then (d, filep, - ENOMEM)
    else
      let d := d.store instp
        { buf_sz := 0, dma_buf_phys := 0, dma_buf_virt := 0, rx_lock := false }
      let filep := { filep with private_data := instp }
      let d := { d with instances := track instp d.instances }
      let d := { d with num_open := d.num_open + 1 }
      (d, filep, 0)
  else (d, filep, - EBUSY)

def dma_proxy_release (d : Driver) (filep : file) : Driver × Int :=
  let d :=
    if filep.private_data ≠ 0 then
      let d := { d with instances := untrack filep.private_data d.instances }
      release_inst d filep.private_data
    else d
  let d := if d.num_open > 0 then { d with num_open := d.num_open - 1 } else d
  (d, 0)

/-- The `DMAPROXY_IOCTCBUF` case of `dma_proxy_ioctl`. -/
def ioctl_cbuf (d : Driver) (filep : file) (arg : UserArg) (env : Env) : Driver × Outcome :=
  match arg with
  | .null => (d, .ret (- EINVAL))
  | .fault => (d, .ret (- EIO))
  | .ptr sz =>
    if filep.private_data ≠ 0 ∧ sz < MAX_BUF_SZ then
      let instp := filep.private_data
      if (d.mem instp).dma_buf_virt ≠ 0 then (d, .ret (- EINVAL))
      else
        let d := d.store instp
          { d.mem instp with dma_buf_virt := env.dma_virt, dma_buf_phys := env.dma_phys }
        let d := d.emit (.dma_alloc_coherent sz env.dma_virt env.dma_phys)
        if IS_ERR (d.mem instp).dma_buf_virt then (d, .ret (PTR_ERR (d.mem instp).dma_buf_virt))
        else
          let d := d.store instp { d.mem instp with buf_sz := sz }
          (d, .ret 0)
    else (d, .ret (- EINVAL))

/-- The `DMAPROXY_IOCTRBUF` case of `dma_proxy_ioctl`. -/
def ioctl_rbuf (d : Driver) (filep : file) : Driver × Outcome :=
  if filep.private_data ≠ 0 then
    let instp := filep.private_data
    if (d.mem instp).dma_buf_virt ≠ 0 then
      let d := d.emit (.dma_free_coherent (d.mem instp).buf_sz (d.mem instp).dma_buf_virt
        (d.mem instp).dma_buf_phys)
      (d, .ret 0)
    else (d, .ret (- EFAULT))
  else (d, .ret (- EINVAL))

/-- An error branch of the start case after the hardware mutex was taken:
`mutex_lock(&ip_info.hw_lock); return err;`. -/
def start_fail (d : Driver) (err : Int) : Driver × Outcome :=
  match mutex_lock d .hw_lock with
  | none => (d, .blocked .hw_lock)
  | some d => (d, .ret err)

/-- The end of the start case: allocation of the `rx_sync_dat`, `kthread_run`
and its error check. A failed `kzalloc` is dereferenced unchecked. -/
def start_spawn (d : Driver) (instp : Ptr) (env : Env) : Driver × Outcome :=
  if env.kzalloc_sync then
    let sync : rx_sync_dat :=
      { hw_lock := .hw_lock, instp := instp, axi_addr := d.ip_info.base_addr }
    let d := { d with sync_rx_thread := env.task }
    if IS_ERR d.sync_rx_thread then
      let d := mutex_unlock d .hw_lock
      (d, .ret (PTR_ERR d.sync_rx_thread))
    else (d.emit (.kthread_run sync), .ret 0)
  else (d, .oops)

/-- The `DMAPROXY_IOCTSTART` case of `dma_proxy_ioctl`. -/
def ioctl_start (d : Driver) (filep : file) (arg : UserArg) (env : Env) : Driver × Outcome :=
  match arg with
  | .null => (d, .ret (- EINVAL))
  | .fault => (d, .ret (- EIO))
  | .ptr sz =>
    if filep.private_data ≠ 0 ∧ sz < MAX_BUF_SZ then
      let instp := filep.private_data
      if (d.mem instp).dma_buf_phys = 0 ∨ (d.mem instp).dma_buf_virt = 0 then
        (d, .ret (- EINVAL))
      else if sz > (d.mem instp).buf_sz then (d, .ret (- EINVAL))
      else
        match mutex_lock d .hw_lock with
        | none => (d, .blocked .hw_lock)
        | some d =>
          let r := axi_dma_setup_tx d d.ip_info.base_addr (d.mem instp).dma_buf_phys
          if r.2 ≠ 0 then start_fail r.1 r.2
          else
            let r := axi_dma_setup_rx r.1 r.1.ip_info.base_addr (r.1.mem instp).dma_buf_phys sz
            if r.2 ≠ 0 then start_fail r.1 r.2
            else
              let r := axi_dma_start_tx r.1 r.1.ip_info.base_addr sz
              if r.2 ≠ 0 then start_fail r.1 r.2
              else
                match axi_dma_sync_tx r.1 r.1.ip_info.base_addr env.mm2s_status with
                | (d, .ret _) => start_spawn d instp env
                | (d, o) => (d, o)
    else (d, .ret (- EINVAL))

/-- The `DMAPROXY_IOCTRXSYNC` case of `dma_proxy_ioctl`; `kthread_stop` of a
null task dereferences it. -/
def ioctl_rxsync (d : Driver) (filep : file) : Driver × Outcome :=
  if filep.private_data ≠ 0 then
    let instp := filep.private_data
    match mutex_lock d (.rx_lock instp) with
    | none => (d, .blocked (.rx_lock instp))
    | some d =>
      let d := mutex_unlock d (.rx_lock instp)
      if d.sync_rx_thread = 0 then (d, .oops)
      else
        let d := d.emit (.kthread_stop d.sync_rx_thread)
        let d := { d with sync_rx_thread := 0 }
        (d, .ret 0)
  else (d, .ret (- EINVAL))

def dma_proxy_ioctl (d : Driver) (filep : file) (cmd : Nat) (arg : UserArg) (env : Env) :
    Driver × Outcome :=
  if cmd = DMAPROXY_IOCTCBUF then ioctl_cbuf d filep arg env
  else if cmd = DMAPROXY_IOCTRBUF then ioctl_rbuf d filep
  else if cmd = DMAPROXY_IOCTSTART then ioctl_start d filep arg env
  else if cmd = DMAPROXY_IOCTRXSYNC then ioctl_rxsync d filep
  else (d, .ret (- EINVAL))

/-! ## States and answers used in statements and examples -/

/-- State once `dma_proxy_probe` has succeeded with `ioremap` giving `base`:
no session, the hardware mutex initialised, the engine reset and halted. -/
def probed (base : Ptr) : Driver :=
  let d : Driver :=
    { ip_info := { base_addr := base, hw_lock := false }, num_open := 0,
      instances := List.replicate MAX_INST 0, sync_rx_thread := 0,
      mem := fun _ => { buf_sz := 0, dma_buf_phys := 0, dma_buf_virt := 0, rx_lock := false },
      log := [] }
  (axi_dma_halt (axi_dma_reset d base).1 base).1

/-- The driver state with further events appended to its log. -/
def Driver.emits (d : Driver) (es : List Event) : Driver :=
  { d with log := d.log ++ es }

/-- The hardware mutex taken, the way `mutex_lock` leaves the state (log apart). -/
def Driver.hw_taken (d : Driver) : Driver :=
  { d with ip_info := { d.ip_info with hw_lock := true } }

/-- The events of a start between the call and the poll of the transmit status. -/
def start_setup (base p sz : Nat) : List Event :=
  [.mutex_lock .hw_lock, .iowrite32 p (base + 0x18), .iowrite32 0x7001 (base + 0x00),
   .iowrite32 p (base + 0x48), .iowrite32 0x7001 (base + 0x30),
   .iowrite32 sz (base + 0x58), .iowrite32 sz (base + 0x28)]

/-- A probed driver with one session at 0xC0001000 owning a 4096-byte buffer. -/
def demo (base : Ptr) : Driver :=
  { ip_info := { base_addr := base, hw_lock := false }, num_open := 1,
    instances := [0xC0001000, 0, 0, 0], sync_rx_thread := 0,
    mem := fun q =>
      if q = 0xC0001000 then
        { buf_sz := 4096, dma_buf_phys := 0x1F000000, dma_buf_virt := 0xC2000000, rx_lock := false }
      else { buf_sz := 0, dma_buf_phys := 0, dma_buf_virt := 0, rx_lock := false },
    log := [] }

/-- Sample answers: the transmit status completes at the third read, the thread
and the coherent buffer are granted. -/
def demo_env : Env :=
  { mm2s_status := [0, 2, 0x1002], kzalloc_sync := true, task := 0xC1000000,
    dma_virt := 0xC2000000, dma_phys := 0x1F000000 }

/-- A probed driver with one freshly opened session at 0xC0001000. -/
def fresh : Driver := (dma_proxy_open (probed 0x40400000) ⟨0⟩ 0xC0001000).1

/-- Calls of user space on the device node: `open` (with the result of the
`kzalloc` of the session record, 0 when it fails) and `close` of the open file
description number `fd`. -/
inductive FileOp where
  | do_open (kzalloc : Ptr)
  | do_close (fd : Nat)
deriving DecidableEq, Repr

/-- The driver together with the open file descriptions of the device node. -/
structure Sys where
  drv : Driver
  files : List file

/-- The driver `d` with no open file description. -/
def Sys.boot (d : Driver) : Sys := { drv := d, files := [] }

/-- One call: the kernel runs `dma_proxy_open` on a new `struct file` and keeps
it when the driver returns 0; it runs `dma_proxy_release` on a file description
that is closed, and never on anything that is not open. -/
def Sys.step (s : Sys) : FileOp → Sys × Int
  | .do_open kzalloc =>
    let r := dma_proxy_open s.drv { private_data := 0 } kzalloc
    if r.2.2 = 0 then ({ drv := r.1, files := s.files ++ [r.2.1] }, 0)
    else ({ drv := r.1, files := s.files }, r.2.2)
  | .do_close fd =>
    match s.files[fd]? with
    | none => (s, - EBADF)
    | some filep =>
      ({ drv := (dma_proxy_release s.drv filep).1, files := s.files.eraseIdx fd }, 0)

/-- A sequence of calls, one after the other. -/
def Sys.run (s : Sys) (ops : List FileOp) : Sys :=
  ops.foldl (fun s op => (s.step op).1) s

/-- The open counter agrees with the open file descriptions and is within the limit. -/
def Sys.counted (s : Sys) : Prop :=
  s.drv.num_open = s.files.length ∧ s.files.length ≤ MAX_INST

instance (s : Sys) : Decidable s.counted := by
  unfold Sys.counted
  exact inferInstance

/-! ## The system around the driver: sessions, ioctls and threads -/

/-- Sample answers of a kernel without coherent memory: `dma_alloc_coherent`
returns `NULL` and leaves the handle alone. -/
def nomem_env : Env :=
  { mm2s_status := [], kzalloc_sync := true, task := 0xC1000000, dma_virt := 0, dma_phys := 0 }

/-- Bookkeeping of the thread arguments over a log: `kthread_run` hands one to a
new thread, `kzfree` of the thread discards it. -/
def live_after : List rx_sync_dat → List Event → List rx_sync_dat
  | ls, [] => ls
  | ls, .kthread_run data :: es => live_after (ls ++ [data]) es
  | ls, .kzfree_sync data :: es => live_after (ls.erase data) es
  | ls, _ :: es => live_after ls es

/-- The thread arguments that are live at the end of a log: handed to a thread
that has not yet released its mutexes and freed its argument. -/
def live (log : List Event) : List rx_sync_dat := live_after [] log

/-- Calls on the device node: the file operations, and the Allocate and Free
ioctls on the open file description number `fd`. -/
inductive DevOp where
  | file_op (op : FileOp)
  | allocate (fd : Nat) (arg : UserArg) (env : Env)
  | free (fd : Nat) (arg : UserArg) (env : Env)
deriving DecidableEq, Repr

/-- One call; an ioctl on a descriptor that is not open does not reach the driver. -/
def Sys.exec (s : Sys) : DevOp → Sys
  | .file_op op => (s.step op).1
  | .allocate fd arg env =>
    match s.files[fd]? with
    | none => s
    | some filep =>
      { drv := (dma_proxy_ioctl s.drv filep DMAPROXY_IOCTCBUF arg env).1, files := s.files }
  | .free fd arg env =>
    match s.files[fd]? with
    | none => s
    | some filep =>
      { drv := (dma_proxy_ioctl s.drv filep DMAPROXY_IOCTRBUF arg env).1, files := s.files }

/-- A sequence of calls, one after the other. -/
def Sys.execs (s : Sys) (ops : List DevOp) : Sys := ops.foldl Sys.exec s

/-- Number of occupied (non-null) slots of the instance table. -/
def occupied (instances : List Ptr) : Nat := (instances.filter (fun slot => slot != 0)).length

/-- The instance table holds the session records of the open file descriptions,
one slot each, and every recorded buffer length is below the limit. -/
def Sys.tracked (s : Sys) : Prop :=
  s.counted
  ∧ s.drv.instances.length = MAX_INST
  ∧ List.Perm (s.drv.instances.filter (fun slot => slot != 0)) (s.files.map file.private_data)
  ∧ (∀ f ∈ s.files, f.private_data ≠ 0)
  ∧ (∀ f ∈ s.files, (s.drv.mem f.private_data).buf_sz ≤ MAX_BUF_SZ)

instance (s : Sys) : Decidable s.tracked := by
  unfold Sys.tracked
  exact inferInstance

/-- Events that neither hand an argument to a new thread nor free one. -/
def Event.quiet : Event → Bool
  | .kthread_run _ => false
  | .kzfree_sync _ => false
  | _ => true

/-- Steps of the system around the engine: a start ioctl, a receive-sync ioctl,
and a run of the thread that owns the live argument `data` on the given status
values and `kthread_should_stop` answers. A run that ends inside the polling
loop only reads; one that leaves it (on completion or on a stop request)
releases the mutexes and frees `data`, after which the thread has no further
effect on the driver state. -/
inductive Act where
  | start (filep : file) (arg : UserArg) (env : Env)
  | wait (filep : file) (arg : UserArg) (env : Env)
  | sync (data : rx_sync_dat) (status : List Nat) (stops : List Bool)
deriving DecidableEq, Repr

/-- One step; a thread runs only on an argument that is live. -/
def Driver.act (d : Driver) : Act → Driver
  | .start filep arg env => (dma_proxy_ioctl d filep DMAPROXY_IOCTSTART arg env).1
  | .wait filep arg env => (dma_proxy_ioctl d filep DMAPROXY_IOCTRXSYNC arg env).1
  | .sync data status stops =>
    if data ∈ live d.log then (axi_dma_sync_rx d (some data) status stops).1 else d

/-- A sequence of steps, one after the other. -/
def Driver.acts (d : Driver) (steps : List Act) : Driver := steps.foldl Driver.act d

/-- Number of threads created in a log. -/
def spawned (log : List Event) : Nat :=
  (log.filter (fun e => match e with | .kthread_run _ => true | _ => false)).length

/-- Number of `kthread_stop` calls in a log. -/
def stop_requests (log : List Event) : Nat :=
  (log.filter (fun e => match e with | .kthread_stop _ => true | _ => false)).length

/-- At most one thread argument is live, and while one is the hardware mutex is held. -/
def Driver.exclusive (d : Driver) : Prop :=
  (live d.log).length ≤ 1 ∧ (live d.log ≠ [] → d.ip_info.hw_lock = true)

instance (d : Driver) : Decidable d.exclusive := by
  unfold Driver.exclusive
  exact inferInstance

/-- A probed driver with two sessions, at 0xC0001000 and 0xC0002000, each
owning a 4096-byte buffer. -/
def demo2 (base : Ptr) : Driver :=
  { ip_info := { base_addr := base, hw_lock := false }, num_open := 2,
    instances := [0xC0001000, 0xC0002000, 0, 0], sync_rx_thread := 0,
    mem := fun q =>
      if q = 0xC0001000 then
        { buf_sz := 4096, dma_buf_phys := 0x1F000000, dma_buf_virt := 0xC2000000, rx_lock := false }
      else if q = 0xC0002000 then
        { buf_sz := 4096, dma_buf_phys := 0x1F002000, dma_buf_virt := 0xC2002000, rx_lock := false }
      else { buf_sz := 0, dma_buf_phys := 0, dma_buf_virt := 0, rx_lock := false },
    log := [] }

/-- Sample answers for a second start: the thread it creates is at 0xC1100000. -/
def demo_env2 : Env :=
  { mm2s_status := [0x1002], kzalloc_sync := true, task := 0xC1100000,
    dma_virt := 0xC2002000, dma_phys := 0x1F002000 }

/-- A start of the first session, the completion of its receive as seen by its
thread (no stop request), and a start of the second session. -/
def two_starts : List Act :=
  [.start ⟨0xC0001000⟩ (.ptr 4096) demo_env,
   .sync { hw_lock := .hw_lock, instp := 0xC0001000, axi_addr := 0x40400000 } [0x1002] [false],
   .start ⟨0xC0002000⟩ (.ptr 4096) demo_env2]

theorem emit_eq_emits (d : Driver) (e : Event) : d.emit e = d.emits [e] := rfl

theorem emits_emits (d : Driver) (a b : List Event) : (d.emits a).emits b = d.emits (a ++ b) := by
  simp [Driver.emits, List.append_assoc]

theorem emits_nil (d : Driver) : d.emits [] = d := by
  simp [Driver.emits]

theorem ioctl_cmds : DMAPROXY_IOCTCBUF = 0x40048900 ∧ DMAPROXY_IOCTRBUF = 0x8901
    ∧ DMAPROXY_IOCTSTART = 0x40048902 ∧ DMAPROXY_IOCTRXSYNC = 0x8904 := by
  decide

theorem ioctl_start_rejects (d : Driver) (filep : file) (sz : Nat) (env : Env)
    (h : (d.mem filep.private_data).dma_buf_phys = 0
      ∨ (d.mem filep.private_data).dma_buf_virt = 0
      ∨ (d.mem filep.private_data).buf_sz < sz) :
    dma_proxy_ioctl d filep DMAPROXY_IOCTSTART (.ptr sz) env = (d, .ret (- EINVAL)) := by
  have hc := ioctl_cmds
  simp only [dma_proxy_ioctl, hc.1, hc.2.1, hc.2.2.1, hc.2.2.2]
  simp only [ioctl_start]
  rcases h with h | h | h
  · simp [h]
  · simp [h]
  · simp [h]

theorem and_shift_eq_zero (v i : Nat) : (v &&& (1 <<< i) == 0) = !(v.testBit i) := by
  rw [Nat.one_shiftLeft, Nat.and_two_pow]
  cases h : v.testBit i
  · simp
  · simp [Nat.pos_iff_ne_zero.mp (Nat.two_pow_pos i)]

theorem tx_busy_eq (v : Nat) : tx_busy v = !(v.testBit 1 && v.testBit 12) := by
  simp only [tx_busy, and_shift_eq_zero, AXI_MM2S_DMASR_Idle, AXI_MM2S_DMASR_IOC_Irq]
  cases v.testBit 1 <;> cases v.testBit 12 <;> rfl

theorem rx_busy_eq (v : Nat) : rx_busy v = !(v.testBit 1 && v.testBit 12) := by
  simp only [rx_busy, and_shift_eq_zero, AXI_S2MM_DMASR_Idle, AXI_S2MM_DMASR_IOC_Irq]
  cases v.testBit 1 <;> cases v.testBit 12 <;> rfl

theorem reg_rd_eq (d : Driver) (a r hw : Nat) (ha : a ≠ 0) :
    reg_rd d a r hw = (d.emits [.ioread32 (a + r) hw], hw) := by
  simp [reg_rd, ha, emit_eq_emits]

theorem sync_tx_loop_busy (a : Ptr) (ha : a ≠ 0) (status : List Nat) :
    ∀ (d : Driver) (v : Nat), tx_busy v = true → (∀ x ∈ status, tx_busy x = true) →
      sync_tx_loop a d v status
        = (d.emits (status.map (Event.ioread32 (a + AXI_MM2S_DMASR))), .spinning) := by
  induction status with
  | nil => intro d v hv _; simp [sync_tx_loop, hv, emits_nil]
  | cons x xs ih =>
    intro d v hv hall
    have hx : tx_busy x = true := hall x (by simp)
    have hxs : ∀ y ∈ xs, tx_busy y = true := fun y hy => hall y (by simp [hy])
    simp only [sync_tx_loop, hv, if_true, reg_rd_eq _ _ _ _ ha]
    rw [ih _ _ hx hxs, emits_emits]
    simp

theorem sync_tx_loop_done (a : Ptr) (ha : a ≠ 0) (pre : List Nat) (w : Nat) (post : List Nat)
    (hw : tx_busy w = false) :
    ∀ (d : Driver) (v : Nat), tx_busy v = true → (∀ x ∈ pre, tx_busy x = true) →
      sync_tx_loop a d v (pre ++ w :: post)
        = (d.emits ((pre ++ [w]).map (Event.ioread32 (a + AXI_MM2S_DMASR))), .ret 0) := by
  induction pre with
  | nil =>
    intro d v hv _
    simp only [List.nil_append, sync_tx_loop, hv, if_true, reg_rd_eq _ _ _ _ ha]
    cases post <;> simp [sync_tx_loop, hw]
  | cons x xs ih =>
    intro d v hv hall
    have hx : tx_busy x = true := hall x (by simp)
    have hxs : ∀ y ∈ xs, tx_busy y = true := fun y hy => hall y (by simp [hy])
    simp only [List.cons_append, sync_tx_loop, hv, if_true, reg_rd_eq _ _ _ _ ha, List.append_eq]
    rw [ih _ _ hx hxs, emits_emits]
    simp

theorem sync_tx_busy (d : Driver) (a : Ptr) (ha : a ≠ 0) (status : List Nat)
    (hall : ∀ x ∈ status, tx_busy x = true) :
    axi_dma_sync_tx d a status
      = (d.emits (status.map (Event.ioread32 (a + AXI_MM2S_DMASR))), .spinning) := by
  cases status with
  | nil => simp [axi_dma_sync_tx, ha, emits_nil]
  | cons x xs =>
    have hx : tx_busy x = true := hall x (by simp)
    have hxs : ∀ y ∈ xs, tx_busy y = true := fun y hy => hall y (by simp [hy])
    simp only [axi_dma_sync_tx, ha, if_false, reg_rd_eq _ _ _ _ ha]
    rw [sync_tx_loop_busy a ha xs _ _ hx hxs, emits_emits]
    simp

theorem sync_tx_done (d : Driver) (a : Ptr) (ha : a ≠ 0) (pre : List Nat) (w : Nat)
    (post : List Nat) (hall : ∀ x ∈ pre, tx_busy x = true) (hw : tx_busy w = false) :
    axi_dma_sync_tx d a (pre ++ w :: post)
      = (d.emits ((pre ++ [w]).map (Event.ioread32 (a + AXI_MM2S_DMASR))), .ret 0) := by
  cases pre with
  | nil =>
    simp only [List.nil_append, axi_dma_sync_tx, ha, if_false, reg_rd_eq _ _ _ _ ha]
    cases post <;> simp [sync_tx_loop, hw]
  | cons x xs =>
    have hx : tx_busy x = true := hall x (by simp)
    have hxs : ∀ y ∈ xs, tx_busy y = true := fun y hy => hall y (by simp [hy])
    simp only [List.cons_append, axi_dma_sync_tx, ha, if_false, reg_rd_eq _ _ _ _ ha, List.append_eq]
    rw [sync_tx_loop_done a ha xs w post hw _ _ hx hxs, emits_emits]
    simp

theorem start_unfold (d : Driver) (filep : file) (sz : Nat) (env : Env)
    (hbase : d.ip_info.base_addr ≠ 0) (hsess : filep.private_data ≠ 0)
    (hp : (d.mem filep.private_data).dma_buf_phys ≠ 0)
    (hv : (d.mem filep.private_data).dma_buf_virt ≠ 0)
    (hsz : sz ≤ (d.mem filep.private_data).buf_sz) (hmax : sz < MAX_BUF_SZ)
    (hfree : d.ip_info.hw_lock = false) :
    dma_proxy_ioctl d filep DMAPROXY_IOCTSTART (.ptr sz) env
      = match axi_dma_sync_tx
            (d.hw_taken.emits (start_setup d.ip_info.base_addr
              ((d.mem filep.private_data).dma_buf_phys % 2 ^ 32) sz))
            d.ip_info.base_addr env.mm2s_status with
        | (d, .ret _) => start_spawn d filep.private_data env
        | (d, o) => (d, o) := by
  have hc := ioctl_cmds
  have hsz32 : sz % 4294967296 = sz := Nat.mod_eq_of_lt (by simp [MAX_BUF_SZ] at hmax; omega)
  simp only [dma_proxy_ioctl, hc.1, hc.2.1, hc.2.2.1, hc.2.2.2]
  simp [ioctl_start, hsess, hmax, hp, hv, Nat.not_lt.mpr hsz, mutex_lock, mutex_is_locked, hfree,
    mutex_set, axi_dma_setup_tx, axi_dma_setup_rx, axi_dma_start_tx, Driver.emit, hbase, reg_wr,
    hsz32, Driver.hw_taken, Driver.emits, start_setup,
    AXI_MM2S_SA, AXI_MM2S_DMACR, AXI_MM2S_DMACR_RS, AXI_MM2S_DMACR_IOC_IrqEn,
    AXI_MM2S_DMACR_Dly_IrqEn, AXI_MM2S_DMACR_Err_IrqEn, AXI_MM2S_LENGTH, AXI_S2MM_DA,
    AXI_S2MM_DMACR, AXI_S2MM_DMACR_RS, AXI_S2MM_DMACR_IOC_IRqEn, AXI_S2MM_DMACR_Dly_IrqEn,
    AXI_S2MM_DMACR_Err_IrqEn, AXI_S2MM_LENGTH]

theorem sync_tx_loop_shape (a : Ptr) (status : List Nat) :
    ∀ (d : Driver) (v : Nat), ∃ rs : List Nat,
      (sync_tx_loop a d v status).1 = d.emits (rs.map (Event.ioread32 (a + AXI_MM2S_DMASR)))
      ∧ ((sync_tx_loop a d v status).2 = .ret 0 ∨ (sync_tx_loop a d v status).2 = .spinning) := by
  induction status with
  | nil =>
    intro d v
    refine ⟨[], ?_⟩
    by_cases hv : tx_busy v = true <;> simp [sync_tx_loop, hv, emits_nil]
  | cons x xs ih =>
    intro d v
    by_cases hv : tx_busy v = true
    · by_cases ha : a = 0
      · obtain ⟨rs, h1, h2⟩ := ih d 0
        refine ⟨rs, ?_⟩
        simp only [sync_tx_loop, hv, if_true, reg_rd, ha, ne_eq, not_true_eq_false, if_false]
        rw [ha] at h1 h2
        exact ⟨h1, h2⟩
      · obtain ⟨rs, h1, h2⟩ := ih (d.emits [.ioread32 (a + AXI_MM2S_DMASR) x]) x
        refine ⟨x :: rs, ?_⟩
        simp only [sync_tx_loop, hv, if_true, reg_rd_eq _ _ _ _ ha]
        rw [h1, emits_emits]
        exact ⟨by simp, h2⟩
    · refine ⟨[], ?_⟩
      simp [sync_tx_loop, hv, emits_nil]

theorem sync_tx_shape (d : Driver) (a : Ptr) (ha : a ≠ 0) (status : List Nat) :
    ∃ rs : List Nat,
      (axi_dma_sync_tx d a status).1 = d.emits (rs.map (Event.ioread32 (a + AXI_MM2S_DMASR)))
      ∧ ((axi_dma_sync_tx d a status).2 = .ret 0 ∨ (axi_dma_sync_tx d a status).2 = .spinning) := by
  cases status with
  | nil => exact ⟨[], by simp [axi_dma_sync_tx, ha, emits_nil]⟩
  | cons x xs =>
    obtain ⟨rs, h1, h2⟩ := sync_tx_loop_shape a xs (d.emits [.ioread32 (a + AXI_MM2S_DMASR) x]) x
    refine ⟨x :: rs, ?_⟩
    simp only [axi_dma_sync_tx, ha, if_false, reg_rd_eq _ _ _ _ ha]
    rw [h1, emits_emits]
    exact ⟨by simp, h2⟩

theorem start_base_null (d : Driver) (filep : file) (sz : Nat) (env : Env)
    (hbase : d.ip_info.base_addr = 0) (hsess : filep.private_data ≠ 0)
    (hp : (d.mem filep.private_data).dma_buf_phys ≠ 0)
    (hv : (d.mem filep.private_data).dma_buf_virt ≠ 0)
    (hsz : sz ≤ (d.mem filep.private_data).buf_sz) (hmax : sz < MAX_BUF_SZ)
    (hfree : d.ip_info.hw_lock = false) :
    dma_proxy_ioctl d filep DMAPROXY_IOCTSTART (.ptr sz) env
      = (d.hw_taken.emits [.mutex_lock .hw_lock], .blocked .hw_lock) := by
  have hc := ioctl_cmds
  simp only [dma_proxy_ioctl, hc.1, hc.2.1, hc.2.2.1, hc.2.2.2]
  simp [ioctl_start, hsess, hmax, hp, hv, Nat.not_lt.mpr hsz, mutex_lock, mutex_is_locked, hfree,
    mutex_set, axi_dma_setup_tx, Driver.emit, hbase, start_fail, EINVAL,
    Driver.hw_taken, Driver.emits]

theorem PTR_ERR_ne_zero (p : Ptr) (h : IS_ERR p = true) : PTR_ERR p ≠ 0 := by
  simp only [IS_ERR, ULONG_RANGE, MAX_ERRNO, decide_eq_true_eq] at h
  simp only [PTR_ERR, ULONG_RANGE]
  have hlt : p % 2 ^ 32 < 2 ^ 32 := Nat.mod_lt _ (by norm_num)
  split
  · omega
  · push_cast
    omega

theorem release_inst_num_open (d : Driver) (p : Ptr) :
    (release_inst d p).num_open = d.num_open := by
  unfold release_inst
  split <;> rfl

theorem open_busy (d : Driver) (f : file) (kz : Ptr) (h : ¬ d.num_open < (MAX_INST : Int)) :
    dma_proxy_open d f kz = (d, f, - EBUSY) := by
  simp [dma_proxy_open, h]

theorem open_nomem (d : Driver) (f : file) (h : d.num_open < (MAX_INST : Int)) :
    dma_proxy_open d f 0 = (d, f, - ENOMEM) := by
  simp [dma_proxy_open, h]

theorem open_ok (d : Driver) (f : file) (kz : Ptr) (h : d.num_open < (MAX_INST : Int))
    (hkz : kz ≠ 0) :
    dma_proxy_open d f kz
      = ({ d.store kz { buf_sz := 0, dma_buf_phys := 0, dma_buf_virt := 0, rx_lock := false }
            with instances := track kz d.instances, num_open := d.num_open + 1 },
          { private_data := kz }, 0) := by
  simp [dma_proxy_open, h, hkz, Driver.store]

theorem counted_lt_iff (s : Sys) (h : s.counted) :
    s.drv.num_open < (MAX_INST : Int) ↔ s.files.length < MAX_INST := by
  rw [h.1]
  exact Nat.cast_lt

theorem step_open_busy (s : Sys) (h : s.counted) (hfull : s.files.length = MAX_INST) (kz : Ptr) :
    s.step (.do_open kz) = (s, - EBUSY) := by
  have hn : ¬ s.drv.num_open < (MAX_INST : Int) := by
    rw [counted_lt_iff s h]; omega
  simp [Sys.step, open_busy _ _ _ hn, EBUSY]

theorem step_open_nomem (s : Sys) (h : s.counted) (hlt : s.files.length < MAX_INST) :
    s.step (.do_open 0) = (s, - ENOMEM) := by
  have hn : s.drv.num_open < (MAX_INST : Int) := (counted_lt_iff s h).mpr hlt
  simp [Sys.step, open_nomem _ _ hn, ENOMEM]

theorem step_open_ok (s : Sys) (h : s.counted) (hlt : s.files.length < MAX_INST) (kz : Ptr)
    (hkz : kz ≠ 0) :
    s.step (.do_open kz)
      = ({ drv := { s.drv.store kz
                      { buf_sz := 0, dma_buf_phys := 0, dma_buf_virt := 0, rx_lock := false }
                    with instances := track kz s.drv.instances, num_open := s.drv.num_open + 1 },
           files := s.files ++ [{ private_data := kz }] }, 0) := by
  have hn : s.drv.num_open < (MAX_INST : Int) := (counted_lt_iff s h).mpr hlt
  simp [Sys.step, open_ok _ _ _ hn hkz]

theorem release_num_open (d : Driver) (f : file) :
    (dma_proxy_release d f).1.num_open
      = if d.num_open > 0 then d.num_open - 1 else d.num_open := by
  by_cases hpd : f.private_data ≠ 0 <;> by_cases hpos : d.num_open > 0 <;>
    simp [dma_proxy_release, hpd, hpos, release_inst_num_open]

theorem step_close_files (s : Sys) (fd : Nat) (hfd : fd < s.files.length) :
    (s.step (.do_close fd)).1.files = s.files.eraseIdx fd
    ∧ (s.step (.do_close fd)).1.drv.num_open
        = if s.drv.num_open > 0 then s.drv.num_open - 1 else s.drv.num_open := by
  have hget : s.files[fd]? = some s.files[fd] := List.getElem?_eq_getElem hfd
  have hstep : s.step (.do_close fd)
      = ({ drv := (dma_proxy_release s.drv s.files[fd]).1, files := s.files.eraseIdx fd }, 0) := by
    simp [Sys.step, hget]
  rw [hstep]
  refine ⟨rfl, ?_⟩
  exact release_num_open _ _

theorem step_counted (s : Sys) (op : FileOp) (h : s.counted) : (s.step op).1.counted := by
  cases op with
  | do_open kz =>
    by_cases hlt : s.files.length < MAX_INST
    · by_cases hkz : kz = 0
      · rw [hkz, step_open_nomem s h hlt]; exact h
      · rw [step_open_ok s h hlt kz hkz]
        refine ⟨?_, ?_⟩
        · simp [h.1]
        · simp; omega
    · have hfull : s.files.length = MAX_INST := Nat.le_antisymm h.2 (Nat.le_of_not_lt hlt)
      rw [step_open_busy s h hfull]; exact h
  | do_close fd =>
    by_cases hfd : fd < s.files.length
    · obtain ⟨hf, hn⟩ := step_close_files s fd hfd
      have hpos : s.drv.num_open > 0 := by
        rw [h.1]; exact_mod_cast (Nat.lt_of_le_of_lt (Nat.zero_le _) hfd)
      refine ⟨?_, ?_⟩
      · rw [hn, hf, if_pos hpos, h.1, List.length_eraseIdx, if_pos hfd]
        have : 1 ≤ s.files.length := by omega
        push_cast [this]
        ring
      · rw [hf, List.length_eraseIdx, if_pos hfd]
        have := h.2
        omega
    · have : s.step (.do_close fd) = (s, - EBADF) := by
        simp [Sys.step, List.getElem?_eq_none (Nat.le_of_not_lt hfd)]
      rw [this]; exact h

theorem run_counted (ops : List FileOp) : ∀ s : Sys, s.counted → (s.run ops).counted := by
  induction ops with
  | nil => intro s h; exact h
  | cons op ops ih =>
    intro s h
    exact ih _ (step_counted s op h)

theorem sync_rx_idle_spin (d : Driver) (n : Nat) :
    sync_rx_idle d (List.replicate n false) = (d, .spinning) := by
  induction n with
  | zero => rfl
  | succ n ih => simpa [List.replicate_succ, sync_rx_idle] using ih

theorem sync_rx_idle_stop (d : Driver) (n : Nat) (rest : List Bool) :
    sync_rx_idle d (List.replicate n false ++ true :: rest) = (d, .ret 0) := by
  induction n with
  | zero => rfl
  | succ n ih => simpa [List.replicate_succ, sync_rx_idle] using ih

theorem sync_rx_loop_step (sync : rx_sync_dat) (ha : sync.axi_addr ≠ 0) (d : Driver) (v x : Nat)
    (status : List Nat) (stops : List Bool) (hv : rx_busy v = true) :
    sync_rx_loop sync d v (x :: status) (false :: stops)
      = sync_rx_loop sync (d.emits [.ioread32 (sync.axi_addr + AXI_S2MM_DMASR) x]) x status
          stops := by
  rw [sync_rx_loop]
  simp only [hv, if_true, ha, if_false, reg_rd_eq _ _ _ _ ha, Bool.false_eq_true]

theorem sync_rx_loop_done (sync : rx_sync_dat) (ha : sync.axi_addr ≠ 0) (w : Nat)
    (post : List Nat) (rest : List Bool) (hw : rx_busy w = false) (pre : List Nat) :
    ∀ (d : Driver) (v : Nat), rx_busy v = true → (∀ x ∈ pre, rx_busy x = true) →
      sync_rx_loop sync d v (pre ++ w :: post) (List.replicate (pre.length + 1) false ++ rest)
        = sync_rx_finish
            (d.emits ((pre ++ [w]).map (Event.ioread32 (sync.axi_addr + AXI_S2MM_DMASR))))
            sync rest := by
  induction pre with
  | nil =>
    intro d v hv _
    simp only [List.nil_append, List.length_nil, Nat.zero_add, List.replicate_one,
      List.singleton_append, sync_rx_loop, hv, if_true, ha, if_false, reg_rd_eq _ _ _ _ ha,
      Bool.false_eq_true]
    cases rest <;> simp [sync_rx_loop, hw]
  | cons x xs ih =>
    intro d v hv hall
    have hx : rx_busy x = true := hall x (by simp)
    have hxs : ∀ y ∈ xs, rx_busy y = true := fun y hy => hall y (by simp [hy])
    rw [List.cons_append, List.length_cons, List.replicate_succ, List.cons_append,
      sync_rx_loop_step sync ha d v x _ _ hv, ih _ _ hx hxs, emits_emits]
    simp

theorem sync_rx_loop_stopped (sync : rx_sync_dat) (ha : sync.axi_addr ≠ 0)
    (post : List Nat) (rest : List Bool) (pre : List Nat) :
    ∀ (d : Driver) (v : Nat), rx_busy v = true → (∀ x ∈ pre, rx_busy x = true) →
      sync_rx_loop sync d v (pre ++ post) (List.replicate pre.length false ++ true :: rest)
        = sync_rx_finish
            (d.emits (pre.map (Event.ioread32 (sync.axi_addr + AXI_S2MM_DMASR)))) sync rest := by
  induction pre with
  | nil =>
    intro d v hv _
    simp [sync_rx_loop, hv, emits_nil]
  | cons x xs ih =>
    intro d v hv hall
    have hx : rx_busy x = true := hall x (by simp)
    have hxs : ∀ y ∈ xs, rx_busy y = true := fun y hy => hall y (by simp [hy])
    rw [List.cons_append, List.length_cons, List.replicate_succ, List.cons_append,
      sync_rx_loop_step sync ha d v x _ _ hv, ih _ _ hx hxs, emits_emits]
    simp

theorem sync_rx_done (d : Driver) (sync : rx_sync_dat) (ha : sync.axi_addr ≠ 0)
    (pre : List Nat) (w : Nat) (post : List Nat) (rest : List Bool)
    (hall : ∀ x ∈ pre, rx_busy x = true) (hw : rx_busy w = false) :
    axi_dma_sync_rx d (some sync) (pre ++ w :: post) (List.replicate pre.length false ++ rest)
      = sync_rx_finish
          (d.emits ((pre ++ [w]).map (Event.ioread32 (sync.axi_addr + AXI_S2MM_DMASR))))
          sync rest := by
  cases pre with
  | nil =>
    simp only [List.nil_append, List.length_nil, List.replicate_zero, axi_dma_sync_rx, ha,
      if_false, reg_rd_eq _ _ _ _ ha]
    cases rest <;> simp [sync_rx_loop, hw]
  | cons x xs =>
    have hx : rx_busy x = true := hall x (by simp)
    have hxs : ∀ y ∈ xs, rx_busy y = true := fun y hy => hall y (by simp [hy])
    simp only [List.cons_append, axi_dma_sync_rx, ha, if_false, reg_rd_eq _ _ _ _ ha,
      List.length_cons]
    rw [sync_rx_loop_done sync ha w post rest hw xs _ _ hx hxs, emits_emits]
    simp

theorem sync_rx_stopped (d : Driver) (sync : rx_sync_dat) (ha : sync.axi_addr ≠ 0)
    (x : Nat) (pre post : List Nat) (rest : List Bool)
    (hall : ∀ y ∈ x :: pre, rx_busy y = true) :
    axi_dma_sync_rx d (some sync) (x :: pre ++ post)
        (List.replicate pre.length false ++ true :: rest)
      = sync_rx_finish
          (d.emits ((x :: pre).map (Event.ioread32 (sync.axi_addr + AXI_S2MM_DMASR))))
          sync rest := by
  have hx : rx_busy x = true := hall x (by simp)
  have hxs : ∀ y ∈ pre, rx_busy y = true := fun y hy => hall y (by simp [hy])
  simp only [List.cons_append, axi_dma_sync_rx, ha, if_false, reg_rd_eq _ _ _ _ ha]
  rw [sync_rx_loop_stopped sync ha post rest pre _ _ hx hxs, emits_emits]
  simp

theorem busy_of_bits (x : Nat) (h : ¬ (x.testBit 1 = true ∧ x.testBit 12 = true)) :
    rx_busy x = true := by
  rw [rx_busy_eq]
  cases h1 : x.testBit 1 <;> cases h12 : x.testBit 12 <;> simp_all

theorem sync_rx_idle_fst (d : Driver) (stops : List Bool) : (sync_rx_idle d stops).1 = d := by
  induction stops with
  | nil => rfl
  | cons s stops ih => cases s <;> simp [sync_rx_idle, ih]

theorem sync_rx_idle_snd (d d1 : Driver) (stops : List Bool) :
    (sync_rx_idle d stops).2 = (sync_rx_idle d1 stops).2 := by
  induction stops with
  | nil => rfl
  | cons s stops ih => cases s <;> simp [sync_rx_idle, ih]

theorem finish_log (d : Driver) (sync : rx_sync_dat) (rest : List Bool) :
    (sync_rx_finish d sync rest).1.log
      = d.log ++ [.mutex_unlock sync.hw_lock, .mutex_unlock (.rx_lock sync.instp),
          .kzfree_sync sync]
    ∧ mutex_is_locked (sync_rx_finish d sync rest).1 sync.hw_lock = false
    ∧ mutex_is_locked (sync_rx_finish d sync rest).1 (.rx_lock sync.instp) = false
    ∧ (sync_rx_finish d sync rest).2 = (sync_rx_idle d rest).2 := by
  simp only [sync_rx_finish, sync_rx_idle_fst]
  refine ⟨?_, ?_, ?_, sync_rx_idle_snd _ _ _⟩
  · cases sync.hw_lock <;> simp [mutex_unlock, mutex_set, Driver.emit, Driver.store]
  · cases h : sync.hw_lock with
    | hw_lock => simp [mutex_unlock, mutex_set, Driver.emit, Driver.store, mutex_is_locked]
    | rx_lock q =>
      simp only [mutex_unlock, mutex_set, Driver.emit, Driver.store, mutex_is_locked]
      split <;> simp
  · cases h : sync.hw_lock <;>
      simp [mutex_unlock, mutex_set, Driver.emit, Driver.store, mutex_is_locked]

/-! ## C1 -/

/-- C1: whatever the driver state, the session and the requested length `sz`, a
start command on a session whose recorded physical address is null, or whose
recorded virtual address is null, or whose buffer is shorter than `sz`, returns
`-EINVAL` and leaves the whole state as it was: nothing is appended to the log
(no register write, no `mutex_lock`) and the hardware mutex is untouched. -/
theorem start_without_buffer_or_oversized_fails (d : Driver) (filep : file) (sz : Nat)
    (env : Env)
    (h : (d.mem filep.private_data).dma_buf_phys = 0
      ∨ (d.mem filep.private_data).dma_buf_virt = 0
      ∨ (d.mem filep.private_data).buf_sz < sz) :
    dma_proxy_ioctl d filep DMAPROXY_IOCTSTART (.ptr sz) env = (d, .ret (- EINVAL))
    ∧ (dma_proxy_ioctl d filep DMAPROXY_IOCTSTART (.ptr sz) env).1.log = d.log
    ∧ (dma_proxy_ioctl d filep DMAPROXY_IOCTSTART (.ptr sz) env).1.ip_info.hw_lock
        = d.ip_info.hw_lock := by
  rw [ioctl_start_rejects d filep sz env h]
  exact ⟨rfl, rfl, rfl⟩

/-- C1 at a session with a 4096-byte buffer and a request for 4097 bytes. -/
theorem start_without_buffer_or_oversized_fails_witness :
    dma_proxy_ioctl (demo 0x40400000) ⟨0xC0001000⟩ DMAPROXY_IOCTSTART (.ptr 4097) demo_env
      = (demo 0x40400000, .ret (- EINVAL)) :=
  (start_without_buffer_or_oversized_fails (demo 0x40400000) ⟨0xC0001000⟩ 4097 demo_env
    (by decide)).1

/-! ## C2 -/

/-- C2: with a non-null engine base, a session whose buffer has the non-zero
(32-bit) bus address `p`, a length `sz` within the buffer and below
`MAX_BUF_SZ`, and the hardware mutex free, the events of a start command are, in
this order: `mutex_lock` of the hardware mutex; the six register writes
(0x18, p), (0x00, 0x7001), (0x48, p), (0x30, 0x7001), (0x58, sz), (0x28, sz);
the reads of the transmit status 0x04 up to and including the first value with
bits 1 and 12 set; and only then the creation of the thread (or, when the
kernel refuses the thread, the unlock of the error path; nothing when the
context allocation fails). While no status value has both bits the call is
still polling and the log ends with the reads. -/
theorem start_register_sequence (d : Driver) (filep : file) (sz : Nat) (env : Env)
    (hbase : d.ip_info.base_addr ≠ 0) (hsess : filep.private_data ≠ 0)
    (hp : (d.mem filep.private_data).dma_buf_phys ≠ 0)
    (hp32 : (d.mem filep.private_data).dma_buf_phys < 2 ^ 32)
    (hv : (d.mem filep.private_data).dma_buf_virt ≠ 0)
    (hsz : sz ≤ (d.mem filep.private_data).buf_sz) (hmax : sz < MAX_BUF_SZ)
    (hfree : d.ip_info.hw_lock = false) :
    (∀ pre v post, env.mm2s_status = pre ++ v :: post →
        (∀ x ∈ pre, ¬ (x.testBit 1 = true ∧ x.testBit 12 = true)) →
        (v.testBit 1 = true ∧ v.testBit 12 = true) →
        (dma_proxy_ioctl d filep DMAPROXY_IOCTSTART (.ptr sz) env).1.log
          = d.log
            ++ [Event.mutex_lock .hw_lock,
                .iowrite32 (d.mem filep.private_data).dma_buf_phys (d.ip_info.base_addr + 0x18),
                .iowrite32 0x7001 (d.ip_info.base_addr + 0x00),
                .iowrite32 (d.mem filep.private_data).dma_buf_phys (d.ip_info.base_addr + 0x48),
                .iowrite32 0x7001 (d.ip_info.base_addr + 0x30),
                .iowrite32 sz (d.ip_info.base_addr + 0x58),
                .iowrite32 sz (d.ip_info.base_addr + 0x28)]
            ++ (pre ++ [v]).map (Event.ioread32 (d.ip_info.base_addr + 0x04))
            ++ (if env.kzalloc_sync = true then
                  if IS_ERR env.task = true then [Event.mutex_unlock .hw_lock]
                  else [Event.kthread_run
                    { hw_lock := .hw_lock, instp := filep.private_data,
                      axi_addr := d.ip_info.base_addr }]
                else []))
    ∧ ((∀ x ∈ env.mm2s_status, ¬ (x.testBit 1 = true ∧ x.testBit 12 = true)) →
        (dma_proxy_ioctl d filep DMAPROXY_IOCTSTART (.ptr sz) env).2 = .spinning
        ∧ (dma_proxy_ioctl d filep DMAPROXY_IOCTSTART (.ptr sz) env).1.log
          = d.log
            ++ [Event.mutex_lock .hw_lock,
                .iowrite32 (d.mem filep.private_data).dma_buf_phys (d.ip_info.base_addr + 0x18),
                .iowrite32 0x7001 (d.ip_info.base_addr + 0x00),
                .iowrite32 (d.mem filep.private_data).dma_buf_phys (d.ip_info.base_addr + 0x48),
                .iowrite32 0x7001 (d.ip_info.base_addr + 0x30),
                .iowrite32 sz (d.ip_info.base_addr + 0x58),
                .iowrite32 sz (d.ip_info.base_addr + 0x28)]
            ++ env.mm2s_status.map (Event.ioread32 (d.ip_info.base_addr + 0x04))) := by
  have hun := start_unfold d filep sz env hbase hsess hp hv hsz hmax hfree
  rw [Nat.mod_eq_of_lt hp32] at hun
  constructor
  · intro pre v post hst hpre hv
    have hpre' : ∀ x ∈ pre, tx_busy x = true := by
      intro x hx
      have := hpre x hx
      rw [tx_busy_eq]
      cases h1 : x.testBit 1 <;> cases h12 : x.testBit 12 <;> simp_all
    have hv' : tx_busy v = false := by rw [tx_busy_eq]; simp [hv.1, hv.2]
    rw [hun, hst, sync_tx_done _ _ hbase pre v post hpre' hv']
    simp only [start_spawn]
    by_cases hk : env.kzalloc_sync = true
    · by_cases ht : IS_ERR env.task = true
      · simp [hk, ht, mutex_unlock, mutex_set, Driver.emit, Driver.emits, Driver.hw_taken,
          start_setup, AXI_MM2S_DMASR]
      · simp [hk, ht, Driver.emit, Driver.emits, Driver.hw_taken, start_setup, AXI_MM2S_DMASR]
    · simp [hk, Driver.emits, Driver.hw_taken, start_setup, AXI_MM2S_DMASR]
  · intro hall
    have hall' : ∀ x ∈ env.mm2s_status, tx_busy x = true := by
      intro x hx
      have := hall x hx
      rw [tx_busy_eq]
      cases h1 : x.testBit 1 <;> cases h12 : x.testBit 12 <;> simp_all
    rw [hun, sync_tx_busy _ _ hbase _ hall']
    simp [Driver.emits, Driver.hw_taken, start_setup, AXI_MM2S_DMASR]

/-- C2 at the sample session: the transmit status completes at the third read. -/
theorem start_register_sequence_witness :
    (dma_proxy_ioctl (demo 0x40400000) ⟨0xC0001000⟩ DMAPROXY_IOCTSTART (.ptr 4096) demo_env).1.log
      = [Event.mutex_lock .hw_lock,
         .iowrite32 0x1F000000 0x40400018, .iowrite32 0x7001 0x40400000,
         .iowrite32 0x1F000000 0x40400048, .iowrite32 0x7001 0x40400030,
         .iowrite32 4096 0x40400058, .iowrite32 4096 0x40400028,
         .ioread32 0x40400004 0, .ioread32 0x40400004 2, .ioread32 0x40400004 0x1002,
         .kthread_run { hw_lock := .hw_lock, instp := 0xC0001000, axi_addr := 0x40400000 }] :=
  (start_register_sequence (demo 0x40400000) ⟨0xC0001000⟩ 4096 demo_env (by decide) (by decide)
    (by decide) (by decide) (by decide) (by decide) (by decide) rfl).1
    [0, 2] 0x1002 [] rfl (by decide) (by decide)

/-! ## C3 -/

/-- C3: whenever a start command returns 0, the hardware mutex is held in the
state it leaves, its events are a `mutex_lock` of the hardware mutex, then events
among which there is neither an unlock of that mutex nor a thread creation, then
the creation of one thread whose argument names the hardware mutex, the calling
session and the engine base address. -/
theorem start_success_keeps_hw_lock (d : Driver) (filep : file) (arg : UserArg) (env : Env)
    (hret : (dma_proxy_ioctl d filep DMAPROXY_IOCTSTART arg env).2 = .ret 0) :
    (dma_proxy_ioctl d filep DMAPROXY_IOCTSTART arg env).1.ip_info.hw_lock = true
    ∧ ∃ es : List Event,
        (dma_proxy_ioctl d filep DMAPROXY_IOCTSTART arg env).1.log
          = d.log ++ Event.mutex_lock .hw_lock :: es
            ++ [Event.kthread_run
                  { hw_lock := .hw_lock, instp := filep.private_data,
                    axi_addr := d.ip_info.base_addr }]
        ∧ Event.mutex_unlock .hw_lock ∉ es
        ∧ ∀ data, Event.kthread_run data ∉ es := by
  have hc := ioctl_cmds
  cases arg with
  | null => simp [dma_proxy_ioctl, hc.1, hc.2.1, hc.2.2.1, hc.2.2.2, ioctl_start, EINVAL] at hret
  | fault => simp [dma_proxy_ioctl, hc.1, hc.2.1, hc.2.2.1, hc.2.2.2, ioctl_start, EIO] at hret
  | ptr sz =>
    by_cases hsess : filep.private_data ≠ 0 ∧ sz < MAX_BUF_SZ
    swap
    · simp [dma_proxy_ioctl, hc.1, hc.2.1, hc.2.2.1, hc.2.2.2, ioctl_start, hsess, EINVAL] at hret
    by_cases hbuf : (d.mem filep.private_data).dma_buf_phys = 0
        ∨ (d.mem filep.private_data).dma_buf_virt = 0
        ∨ (d.mem filep.private_data).buf_sz < sz
    · rw [ioctl_start_rejects d filep sz env hbuf] at hret
      simp [EINVAL] at hret
    simp only [not_or, not_lt] at hbuf
    obtain ⟨hp, hv, hsz⟩ := hbuf
    cases hfree : d.ip_info.hw_lock with
    | true =>
      simp [dma_proxy_ioctl, hc.1, hc.2.1, hc.2.2.1, hc.2.2.2, ioctl_start, hsess, hp, hv,
        Nat.not_lt.mpr hsz, mutex_lock, mutex_is_locked, hfree] at hret
    | false =>
      by_cases hbase : d.ip_info.base_addr = 0
      · rw [start_base_null d filep sz env hbase hsess.1 hp hv hsz hsess.2 hfree] at hret
        simp at hret
      have hun := start_unfold d filep sz env hbase hsess.1 hp hv hsz hsess.2 hfree
      obtain ⟨rs, h1, h2⟩ := sync_tx_shape
        (d.hw_taken.emits (start_setup d.ip_info.base_addr
          ((d.mem filep.private_data).dma_buf_phys % 2 ^ 32) sz))
        d.ip_info.base_addr hbase env.mm2s_status
      revert hret
      rw [hun]
      generalize axi_dma_sync_tx _ _ _ = res at h1 h2
      obtain ⟨d1, o⟩ := res
      simp only at h1 h2
      subst h1
      rcases h2 with h2 | h2
      · subst h2
        simp only [start_spawn]
        cases hk : env.kzalloc_sync with
        | false => simp
        | true =>
          cases ht : IS_ERR env.task with
          | true =>
            intro hret
            simp [ht] at hret
            exact absurd hret (PTR_ERR_ne_zero _ ht)
          | false =>
            intro _
            refine ⟨by simp [ht, Driver.emit, Driver.emits, Driver.hw_taken], ?_⟩
            refine ⟨(start_setup d.ip_info.base_addr
              ((d.mem filep.private_data).dma_buf_phys % 2 ^ 32) sz).tail
              ++ rs.map (Event.ioread32 (d.ip_info.base_addr + AXI_MM2S_DMASR)), ?_, ?_, ?_⟩
            · simp [ht, Driver.emit, Driver.emits, Driver.hw_taken, start_setup]
            · simp [start_setup]
            · simp [start_setup]
      · subst h2
        simp

/-- C3 at the sample session. -/
theorem start_success_keeps_hw_lock_witness :
    (dma_proxy_ioctl (demo 0x40400000) ⟨0xC0001000⟩ DMAPROXY_IOCTSTART (.ptr 4096)
        demo_env).1.ip_info.hw_lock = true :=
  (start_success_keeps_hw_lock (demo 0x40400000) ⟨0xC0001000⟩ (.ptr 4096) demo_env
    (by decide)).1

/-! ## C4 -/

/-- C5, the code after Allocate and Free: a start command on a session whose
buffer was handed back by `dma_free_coherent` takes the hardware mutex and
programs the engine with the address of the freed buffer. -/
theorem start_after_free_transfers :
    (dma_proxy_ioctl
      (dma_proxy_ioctl
        (dma_proxy_ioctl fresh ⟨0xC0001000⟩ DMAPROXY_IOCTCBUF (.ptr 4096) demo_env).1
        ⟨0xC0001000⟩ DMAPROXY_IOCTRBUF .null demo_env).1
      ⟨0xC0001000⟩ DMAPROXY_IOCTSTART (.ptr 4096) demo_env).1.log
      = fresh.log
        ++ [Event.dma_alloc_coherent 4096 0xC2000000 0x1F000000,
            .dma_free_coherent 4096 0xC2000000 0x1F000000,
            .mutex_lock .hw_lock,
            .iowrite32 0x1F000000 0x40400018, .iowrite32 0x7001 0x40400000,
            .iowrite32 0x1F000000 0x40400048, .iowrite32 0x7001 0x40400030,
            .iowrite32 4096 0x40400058, .iowrite32 4096 0x40400028,
            .ioread32 0x40400004 0, .ioread32 0x40400004 2, .ioread32 0x40400004 0x1002,
            .kthread_run { hw_lock := .hw_lock, instp := 0xC0001000, axi_addr := 0x40400000 }] := by
  decide

/-! ## C6 -/

/-- C6, the code on Allocate(4096) then Free on a fresh session: both return 0,
and the session record still holds the address and the size of the freed
buffer instead of the null address and size 0 it had before. -/
theorem free_keeps_record :
    (dma_proxy_ioctl fresh ⟨0xC0001000⟩ DMAPROXY_IOCTCBUF (.ptr 4096) demo_env).2 = .ret 0
    ∧ (dma_proxy_ioctl
        (dma_proxy_ioctl fresh ⟨0xC0001000⟩ DMAPROXY_IOCTCBUF (.ptr 4096) demo_env).1
        ⟨0xC0001000⟩ DMAPROXY_IOCTRBUF .null demo_env).2 = .ret 0
    ∧ fresh.mem 0xC0001000
        = { buf_sz := 0, dma_buf_phys := 0, dma_buf_virt := 0, rx_lock := false }
    ∧ (dma_proxy_ioctl
        (dma_proxy_ioctl fresh ⟨0xC0001000⟩ DMAPROXY_IOCTCBUF (.ptr 4096) demo_env).1
        ⟨0xC0001000⟩ DMAPROXY_IOCTRBUF .null demo_env).1.mem 0xC0001000
        = { buf_sz := 4096, dma_buf_phys := 0x1F000000, dma_buf_virt := 0xC2000000,
            rx_lock := false } := by
  decide

/-! ## C7 -/

/-- C7: an allocate command with a size of at least `MAX_BUF_SZ`, or on a
session whose recorded virtual address is not null, returns `-EINVAL` and leaves
the whole state as it was: the coherent allocator is not called (nothing is
appended to the log) and the session record is unchanged. -/
theorem allocate_oversized_or_twice_fails (d : Driver) (filep : file) (s : Nat) (env : Env)
    (h : MAX_BUF_SZ ≤ s ∨ (d.mem filep.private_data).dma_buf_virt ≠ 0) :
    dma_proxy_ioctl d filep DMAPROXY_IOCTCBUF (.ptr s) env = (d, .ret (- EINVAL))
    ∧ (dma_proxy_ioctl d filep DMAPROXY_IOCTCBUF (.ptr s) env).1.log = d.log
    ∧ (dma_proxy_ioctl d filep DMAPROXY_IOCTCBUF (.ptr s) env).1.mem filep.private_data
        = d.mem filep.private_data := by
  have hc := ioctl_cmds
  have key : dma_proxy_ioctl d filep DMAPROXY_IOCTCBUF (.ptr s) env = (d, .ret (- EINVAL)) := by
    simp only [dma_proxy_ioctl, hc.1, if_true, ioctl_cbuf]
    rcases h with h | h
    · simp [Nat.not_lt.mpr h]
    · simp [h]
  rw [key]
  exact ⟨rfl, rfl, rfl⟩

/-- C7 at a session that already has a buffer. -/
theorem allocate_oversized_or_twice_fails_witness :
    dma_proxy_ioctl (demo 0x40400000) ⟨0xC0001000⟩ DMAPROXY_IOCTCBUF (.ptr 64) demo_env
      = (demo 0x40400000, .ret (- EINVAL)) :=
  (allocate_oversized_or_twice_fails (demo 0x40400000) ⟨0xC0001000⟩ 64 demo_env
    (Or.inr (by decide))).1

/-! ## C8 -/

/-- C8 as stated fails: with no session open, an open whose `kzalloc` of the
session record returns null fails with `-ENOMEM`. -/
theorem open_fails_without_memory :
    (Sys.boot (probed 0x40400000)).files.length < MAX_INST
    ∧ ((Sys.boot (probed 0x40400000)).step (.do_open 0)).2 = - ENOMEM
    ∧ ((Sys.boot (probed 0x40400000)).step (.do_open 0)).2 ≠ 0 := by
  decide

/-- C8 amended: from a state with the open counter at 0, after any sequence of
open and close calls, the counter equals the number of open sessions and is at
most `MAX_INST`; an open whose session record is allocated succeeds exactly when
fewer than `MAX_INST` sessions are open, and then creates a session with null
addresses, size 0 and a free completion lock; an open whose allocation fails
returns `-ENOMEM` and changes nothing; with `MAX_INST` sessions open every open
returns `-EBUSY` and changes nothing; and after the close of any one of
`MAX_INST` open sessions an open (with its record allocated) succeeds. -/
theorem open_close_session_limit (d0 : Driver) (h0 : d0.num_open = 0) (ops : List FileOp) :
    ((Sys.boot d0).run ops).drv.num_open = ((Sys.boot d0).run ops).files.length
    ∧ ((Sys.boot d0).run ops).files.length ≤ MAX_INST
    ∧ (∀ kz : Ptr, kz ≠ 0 →
        ((((Sys.boot d0).run ops).step (.do_open kz)).2 = 0
          ↔ ((Sys.boot d0).run ops).files.length < MAX_INST))
    ∧ (∀ kz : Ptr, kz ≠ 0 → ((Sys.boot d0).run ops).files.length < MAX_INST →
        (((Sys.boot d0).run ops).step (.do_open kz)).1.files
            = ((Sys.boot d0).run ops).files ++ [{ private_data := kz }]
        ∧ (((Sys.boot d0).run ops).step (.do_open kz)).1.drv.mem kz
            = { buf_sz := 0, dma_buf_phys := 0, dma_buf_virt := 0, rx_lock := false })
    ∧ (((Sys.boot d0).run ops).files.length < MAX_INST →
        ((Sys.boot d0).run ops).step (.do_open 0) = ((Sys.boot d0).run ops, - ENOMEM))
    ∧ (((Sys.boot d0).run ops).files.length = MAX_INST → ∀ kz : Ptr,
        ((Sys.boot d0).run ops).step (.do_open kz) = ((Sys.boot d0).run ops, - EBUSY))
    ∧ (((Sys.boot d0).run ops).files.length = MAX_INST → ∀ (fd : Nat) (kz : Ptr),
        fd < MAX_INST → kz ≠ 0 →
        (((Sys.boot d0).run ops).step (.do_close fd)).2 = 0
        ∧ ((((Sys.boot d0).run ops).step (.do_close fd)).1.step (.do_open kz)).2 = 0) := by
  have hinit : (Sys.boot d0).counted := ⟨by simp [Sys.boot, h0], by simp [Sys.boot]⟩
  have hs := run_counted ops _ hinit
  generalize (Sys.boot d0).run ops = s at hs
  refine ⟨hs.1, hs.2, ?_, ?_, ?_, ?_, ?_⟩
  · intro kz hkz
    constructor
    · intro hret
      by_contra hlt
      have hfull : s.files.length = MAX_INST := Nat.le_antisymm hs.2 (Nat.le_of_not_lt hlt)
      rw [step_open_busy s hs hfull] at hret
      simp [EBUSY] at hret
    · intro hlt
      rw [step_open_ok s hs hlt kz hkz]
  · intro kz hkz hlt
    rw [step_open_ok s hs hlt kz hkz]
    simp [Driver.store]
  · intro hlt
    exact step_open_nomem s hs hlt
  · intro hfull kz
    exact step_open_busy s hs hfull kz
  · intro hfull fd kz hfd hkz
    have hfd' : fd < s.files.length := by omega
    have hc := step_counted s (.do_close fd) hs
    obtain ⟨hf, _⟩ := step_close_files s fd hfd'
    have hlt : (s.step (.do_close fd)).1.files.length < MAX_INST := by
      rw [hf, List.length_eraseIdx, if_pos hfd']
      omega
    refine ⟨?_, ?_⟩
    · simp [Sys.step, List.getElem?_eq_getElem hfd']
    · rw [step_open_ok _ hc hlt kz hkz]

/-- C8 amended, on five opens and a close from the probed state. -/
theorem open_close_session_limit_witness :
    ((Sys.boot (probed 0x40400000)).run
        [.do_open 0xC0001000, .do_open 0xC0002000, .do_open 0xC0003000, .do_open 0xC0004000,
         .do_open 0xC0005000, .do_close 2]).files.length ≤ MAX_INST :=
  (open_close_session_limit (probed 0x40400000) rfl
    [.do_open 0xC0001000, .do_open 0xC0002000, .do_open 0xC0003000, .do_open 0xC0004000,
     .do_open 0xC0005000, .do_close 2]).2.1

/-! ## C9 -/

/-- C9: with a non-null engine address, status values `pre` that each lack bit 1
or bit 12 followed by a value `v` with both, and no stop request during the
poll, the thread reads the receive status 0x34 once per value of `pre` and once
for `v`, reads nothing further, then unlocks the hardware mutex, then the
completion lock of its session, each once; as long as `kthread_should_stop`
answers no it has not returned, and at the first yes it returns 0, both mutexes
free. -/
theorem sync_rx_completes (d : Driver) (sync : rx_sync_dat) (pre : List Nat) (v : Nat)
    (post : List Nat) (idle : Nat) (rest : List Bool)
    (ha : sync.axi_addr ≠ 0)
    (hpre : ∀ x ∈ pre, ¬ (x.testBit 1 = true ∧ x.testBit 12 = true))
    (hv : v.testBit 1 = true ∧ v.testBit 12 = true) :
    ((axi_dma_sync_rx d (some sync) (pre ++ v :: post)
        (List.replicate pre.length false ++ List.replicate idle false)).2 = .spinning
      ∧ (axi_dma_sync_rx d (some sync) (pre ++ v :: post)
          (List.replicate pre.length false ++ List.replicate idle false)).1.log
        = d.log ++ (pre ++ [v]).map (Event.ioread32 (sync.axi_addr + 0x34))
          ++ [.mutex_unlock sync.hw_lock, .mutex_unlock (.rx_lock sync.instp),
              .kzfree_sync sync])
    ∧ ((axi_dma_sync_rx d (some sync) (pre ++ v :: post)
        (List.replicate pre.length false ++ (List.replicate idle false ++ true :: rest))).2
          = .ret 0
      ∧ (axi_dma_sync_rx d (some sync) (pre ++ v :: post)
          (List.replicate pre.length false ++ (List.replicate idle false ++ true :: rest))).1.log
        = d.log ++ (pre ++ [v]).map (Event.ioread32 (sync.axi_addr + 0x34))
          ++ [.mutex_unlock sync.hw_lock, .mutex_unlock (.rx_lock sync.instp),
              .kzfree_sync sync]
      ∧ mutex_is_locked (axi_dma_sync_rx d (some sync) (pre ++ v :: post)
          (List.replicate pre.length false ++ (List.replicate idle false ++ true :: rest))).1
          sync.hw_lock = false
      ∧ mutex_is_locked (axi_dma_sync_rx d (some sync) (pre ++ v :: post)
          (List.replicate pre.length false ++ (List.replicate idle false ++ true :: rest))).1
          (.rx_lock sync.instp) = false) := by
  have hpre' : ∀ x ∈ pre, rx_busy x = true := fun x hx => busy_of_bits x (hpre x hx)
  have hv' : rx_busy v = false := by rw [rx_busy_eq]; simp [hv.1, hv.2]
  rw [sync_rx_done d sync ha pre v post _ hpre' hv', sync_rx_done d sync ha pre v post _ hpre' hv']
  obtain ⟨l1, _, _, o1⟩ := finish_log
    (d.emits ((pre ++ [v]).map (Event.ioread32 (sync.axi_addr + AXI_S2MM_DMASR)))) sync
    (List.replicate idle false)
  obtain ⟨l2, k1, k2, o2⟩ := finish_log
    (d.emits ((pre ++ [v]).map (Event.ioread32 (sync.axi_addr + AXI_S2MM_DMASR)))) sync
    (List.replicate idle false ++ true :: rest)
  rw [sync_rx_idle_spin] at o1
  rw [sync_rx_idle_stop] at o2
  refine ⟨⟨o1, ?_⟩, o2, ?_, k1, k2⟩
  · rw [l1]; simp [Driver.emits, AXI_S2MM_DMASR]
  · rw [l2]; simp [Driver.emits, AXI_S2MM_DMASR]

/-- C9 at the sample session: completion at the third read, stop at the third
question after it. -/
theorem sync_rx_completes_witness :
    (axi_dma_sync_rx (demo 0x40400000).hw_taken
        (some { hw_lock := .hw_lock, instp := 0xC0001000, axi_addr := 0x40400000 })
        [0, 2, 0x1002] [false, false, false, false, true]).2 = .ret 0 :=
  (sync_rx_completes (demo 0x40400000).hw_taken
    { hw_lock := .hw_lock, instp := 0xC0001000, axi_addr := 0x40400000 }
    [0, 2] 0x1002 [] 2 [] (by decide) (by decide) (by decide)).2.1

/-! ## C10 -/

/-- C10 as stated fails: no status value read has both bits, the stop request
arrives at the second question, and the thread unlocks the hardware mutex and the
completion lock before it returns 0. -/
theorem sync_rx_stop_releases_locks :
    (∀ y ∈ [0, 2], ¬ (Nat.testBit y 1 = true ∧ Nat.testBit y 12 = true))
    ∧ (axi_dma_sync_rx (demo 0x40400000).hw_taken
        (some { hw_lock := .hw_lock, instp := 0xC0001000, axi_addr := 0x40400000 })
        [0, 2] [false, true, true]).2 = .ret 0
    ∧ (axi_dma_sync_rx (demo 0x40400000).hw_taken
        (some { hw_lock := .hw_lock, instp := 0xC0001000, axi_addr := 0x40400000 })
        [0, 2] [false, true, true]).1.log
      = [.ioread32 0x40400034 0, .ioread32 0x40400034 2,
         .mutex_unlock .hw_lock, .mutex_unlock (.rx_lock 0xC0001000),
         .kzfree_sync { hw_lock := .hw_lock, instp := 0xC0001000, axi_addr := 0x40400000 }]
    ∧ (axi_dma_sync_rx (demo 0x40400000).hw_taken
        (some { hw_lock := .hw_lock, instp := 0xC0001000, axi_addr := 0x40400000 })
        [0, 2] [false, true, true]).1.ip_info.hw_lock = false := by
  decide

/-- C10 amended: when the stop request arrives while the thread is polling (every
status value read so far lacks bit 1 or bit 12), the thread reads no further
status, unlocks the hardware mutex and then the completion lock of its session,
each once, and returns 0 at the next question, the stop request still standing. -/
theorem sync_rx_stop_while_polling (d : Driver) (sync : rx_sync_dat) (x : Nat)
    (pre post : List Nat) (rest : List Bool)
    (ha : sync.axi_addr ≠ 0)
    (hbusy : ∀ y ∈ x :: pre, ¬ (y.testBit 1 = true ∧ y.testBit 12 = true)) :
    (axi_dma_sync_rx d (some sync) (x :: pre ++ post)
        (List.replicate pre.length false ++ true :: true :: rest)).2 = .ret 0
    ∧ (axi_dma_sync_rx d (some sync) (x :: pre ++ post)
        (List.replicate pre.length false ++ true :: true :: rest)).1.log
      = d.log ++ (x :: pre).map (Event.ioread32 (sync.axi_addr + 0x34))
        ++ [.mutex_unlock sync.hw_lock, .mutex_unlock (.rx_lock sync.instp), .kzfree_sync sync]
    ∧ mutex_is_locked (axi_dma_sync_rx d (some sync) (x :: pre ++ post)
        (List.replicate pre.length false ++ true :: true :: rest)).1 sync.hw_lock = false
    ∧ mutex_is_locked (axi_dma_sync_rx d (some sync) (x :: pre ++ post)
        (List.replicate pre.length false ++ true :: true :: rest)).1 (.rx_lock sync.instp)
      = false := by
  have hb : ∀ y ∈ x :: pre, rx_busy y = true := fun y hy => busy_of_bits y (hbusy y hy)
  rw [sync_rx_stopped d sync ha x pre post _ hb]
  obtain ⟨l, k1, k2, o⟩ := finish_log
    (d.emits ((x :: pre).map (Event.ioread32 (sync.axi_addr + AXI_S2MM_DMASR)))) sync
    (true :: rest)
  refine ⟨?_, ?_, k1, k2⟩
  · rw [o]; rfl
  · rw [l]; simp [Driver.emits, AXI_S2MM_DMASR]

/-- C10 amended, at the sample session: stop at the second question. -/
theorem sync_rx_stop_while_polling_witness :
    (axi_dma_sync_rx (demo 0x40400000).hw_taken
        (some { hw_lock := .hw_lock, instp := 0xC0001000, axi_addr := 0x40400000 })
        [0, 2] [false, true, true]).2 = .ret 0 :=
  (sync_rx_stop_while_polling (demo 0x40400000).hw_taken
    { hw_lock := .hw_lock, instp := 0xC0001000, axi_addr := 0x40400000 }
    0 [2] [] [] (by decide) (by decide)).1

/-! ## Lemmas on the system steps -/

theorem ctrl_value_bits (i : Nat) :
    Nat.testBit 0x7001 i = true ↔ (i = 0 ∨ i = 12 ∨ i = 13 ∨ i = 14) := by
  by_cases hi : i < 15
  · interval_cases i <;> decide
  · have h : Nat.testBit 0x7001 i = false :=
      Nat.testBit_lt_two_pow (Nat.lt_of_lt_of_le (by decide : 0x7001 < 2 ^ 15)
        (Nat.pow_le_pow_right (by decide) (Nat.le_of_not_lt hi)))
    rw [h]
    constructor
    · intro h'; cases h'
    · intro h'; omega

theorem track_length (p : Ptr) (l : List Ptr) : (track p l).length = l.length := by
  induction l with
  | nil => rfl
  | cons slot rest ih =>
    by_cases h : slot = 0 <;> simp [track, h, ih]

theorem untrack_length (p : Ptr) (l : List Ptr) : (untrack p l).length = l.length := by
  induction l with
  | nil => rfl
  | cons slot rest ih =>
    by_cases h : slot = p <;> simp [untrack, h, ih]

theorem track_filter (p : Ptr) (hp : p ≠ 0) (l : List Ptr)
    (h : (l.filter (fun slot => slot != 0)).length < l.length) :
    List.Perm ((track p l).filter (fun slot => slot != 0))
      (p :: l.filter (fun slot => slot != 0)) := by
  induction l with
  | nil => simp at h
  | cons slot rest ih =>
    by_cases hs : slot = 0
    · simp [track, hs, hp]
    · have hlt : (rest.filter (fun slot => slot != 0)).length < rest.length := by
        simp [hs] at h
        exact h
      have := ih hlt
      simp only [track, hs, if_false]
      rw [List.filter_cons_of_pos (by simpa using hs), List.filter_cons_of_pos (by simpa using hs)]
      exact (List.Perm.cons slot this).trans (List.Perm.swap p slot _)

theorem untrack_filter (p : Ptr) (hp : p ≠ 0) (l : List Ptr) :
    (untrack p l).filter (fun slot => slot != 0)
      = (l.filter (fun slot => slot != 0)).erase p := by
  induction l with
  | nil => rfl
  | cons slot rest ih =>
    by_cases hs : slot = p
    · subst hs
      simp [untrack, hp]
    · by_cases h0 : slot = 0
      · subst h0
        have hp0 : ¬ (0 = p) := fun h => hp h.symm
        simp [untrack, hp0, ih]
      · simp only [untrack, hs, if_false]
        rw [List.filter_cons_of_pos (by simpa using h0), List.filter_cons_of_pos (by simpa using h0),
          ih, List.erase_cons_tail (by simpa using hs)]

theorem eraseIdx_map_perm (files : List file) :
    ∀ fd (h : fd < files.length),
      List.Perm ((files.map file.private_data).erase (files[fd]).private_data)
        ((files.eraseIdx fd).map file.private_data) := by
  induction files with
  | nil => intro fd h; simp at h
  | cons f rest ih =>
    intro fd h
    cases fd with
    | zero => simp
    | succ j =>
      have hj : j < rest.length := by simpa using h
      simp only [List.map_cons, List.getElem_cons_succ, List.eraseIdx_cons_succ]
      by_cases hf : f.private_data = (rest[j]).private_data
      · rw [hf, List.erase_cons_head]
        have hmem : (rest[j]).private_data ∈ rest.map file.private_data :=
          List.mem_map.mpr ⟨rest[j], List.getElem_mem _, rfl⟩
        exact (List.perm_cons_erase hmem).trans (List.Perm.cons _ (ih j hj))
      · rw [List.erase_cons_tail (by simpa using hf)]
        exact List.Perm.cons _ (ih j hj)

theorem release_inst_fields (d : Driver) (p : Ptr) :
    (release_inst d p).mem = d.mem ∧ (release_inst d p).instances = d.instances := by
  unfold release_inst
  split <;> exact ⟨rfl, rfl⟩

theorem release_fields (d : Driver) (f : file) :
    (dma_proxy_release d f).1.mem = d.mem
    ∧ (dma_proxy_release d f).1.instances
        = if f.private_data ≠ 0 then untrack f.private_data d.instances else d.instances := by
  by_cases hpd : f.private_data ≠ 0 <;> by_cases hpos : d.num_open > 0 <;>
    simp [dma_proxy_release, hpd, hpos, release_inst_fields, release_inst_num_open]

theorem ioctl_cbuf_eq (d : Driver) (f : file) (arg : UserArg) (env : Env) :
    dma_proxy_ioctl d f DMAPROXY_IOCTCBUF arg env = ioctl_cbuf d f arg env := by
  simp [dma_proxy_ioctl]

theorem ioctl_rbuf_eq (d : Driver) (f : file) (arg : UserArg) (env : Env) :
    dma_proxy_ioctl d f DMAPROXY_IOCTRBUF arg env = ioctl_rbuf d f := by
  have hne : ¬ (DMAPROXY_IOCTRBUF = DMAPROXY_IOCTCBUF) := by decide
  simp [dma_proxy_ioctl, hne]

theorem cbuf_fields (d : Driver) (f : file) (arg : UserArg) (env : Env) :
    (dma_proxy_ioctl d f DMAPROXY_IOCTCBUF arg env).1.num_open = d.num_open
    ∧ (dma_proxy_ioctl d f DMAPROXY_IOCTCBUF arg env).1.instances = d.instances
    ∧ ∀ q, ((dma_proxy_ioctl d f DMAPROXY_IOCTCBUF arg env).1.mem q).buf_sz = (d.mem q).buf_sz
        ∨ ((dma_proxy_ioctl d f DMAPROXY_IOCTCBUF arg env).1.mem q).buf_sz < MAX_BUF_SZ := by
  rw [ioctl_cbuf_eq]
  unfold ioctl_cbuf
  split
  · exact ⟨rfl, rfl, fun q => Or.inl rfl⟩
  · exact ⟨rfl, rfl, fun q => Or.inl rfl⟩
  · rename_i sz
    split
    · rename_i h1
      dsimp only
      split
      · exact ⟨rfl, rfl, fun q => Or.inl rfl⟩
      · split
        · refine ⟨rfl, rfl, fun q => ?_⟩
          by_cases hq : q = f.private_data <;> simp [Driver.emit, Driver.store, hq]
        · refine ⟨rfl, rfl, fun q => ?_⟩
          by_cases hq : q = f.private_data <;> simp [Driver.emit, Driver.store, hq, h1.2]
    · exact ⟨rfl, rfl, fun q => Or.inl rfl⟩

theorem rbuf_fields (d : Driver) (f : file) (arg : UserArg) (env : Env) :
    (dma_proxy_ioctl d f DMAPROXY_IOCTRBUF arg env).1.num_open = d.num_open
    ∧ (dma_proxy_ioctl d f DMAPROXY_IOCTRBUF arg env).1.instances = d.instances
    ∧ (dma_proxy_ioctl d f DMAPROXY_IOCTRBUF arg env).1.mem = d.mem := by
  rw [ioctl_rbuf_eq]
  unfold ioctl_rbuf
  split
  · dsimp only
    split
    · exact ⟨rfl, rfl, rfl⟩
    · exact ⟨rfl, rfl, rfl⟩
  · exact ⟨rfl, rfl, rfl⟩

theorem step_tracked (s : Sys) (op : FileOp) (h : s.tracked) : (s.step op).1.tracked := by
  obtain ⟨hc, hlen, hperm, hnz, hsz⟩ := h
  have hc' := step_counted s op hc
  refine ⟨hc', ?_⟩
  cases op with
  | do_open kz =>
    by_cases hlt : s.files.length < MAX_INST
    · by_cases hkz : kz = 0
      · rw [hkz, step_open_nomem s hc hlt]; exact ⟨hlen, hperm, hnz, hsz⟩
      · rw [step_open_ok s hc hlt kz hkz]
        have hocc : (s.drv.instances.filter (fun slot => slot != 0)).length
            < s.drv.instances.length := by
          rw [hperm.length_eq, List.length_map, hlen]; exact hlt
        refine ⟨?_, ?_, ?_, ?_⟩
        · simp [track_length, hlen, Driver.store]
        · have := track_filter kz hkz s.drv.instances hocc
          simp only [List.map_append, List.map_cons, List.map_nil, Driver.store]
          exact this.trans ((List.Perm.cons kz hperm).trans
            (@List.perm_append_comm _ [kz] _))
        · intro f hf
          rcases List.mem_append.mp hf with hf | hf
          · exact hnz f hf
          · simp only [List.mem_singleton] at hf
            rw [hf]; exact hkz
        · intro f hf
          by_cases hq : f.private_data = kz
          · simp [Driver.store, hq]
          · rcases List.mem_append.mp hf with hf | hf
            · simpa [Driver.store, hq] using hsz f hf
            · simp only [List.mem_singleton] at hf
              exact absurd (by rw [hf]) hq
    · have hfull : s.files.length = MAX_INST := Nat.le_antisymm hc.2 (Nat.le_of_not_lt hlt)
      rw [step_open_busy s hc hfull]; exact ⟨hlen, hperm, hnz, hsz⟩
  | do_close fd =>
    by_cases hfd : fd < s.files.length
    · have hget : s.files[fd]? = some s.files[fd] := List.getElem?_eq_getElem hfd
      have hstep : s.step (.do_close fd)
          = ({ drv := (dma_proxy_release s.drv s.files[fd]).1, files := s.files.eraseIdx fd },
              0) := by
        simp [Sys.step, hget]
      rw [hstep]
      obtain ⟨hmem, hinst⟩ := release_fields s.drv s.files[fd]
      have hpd : (s.files[fd]).private_data ≠ 0 := hnz _ (List.getElem_mem _)
      rw [if_pos hpd] at hinst
      refine ⟨?_, ?_, ?_, ?_⟩
      · show (dma_proxy_release s.drv s.files[fd]).1.instances.length = MAX_INST
        rw [hinst, untrack_length, hlen]
      · show List.Perm ((dma_proxy_release s.drv s.files[fd]).1.instances.filter _) _
        rw [hinst, untrack_filter _ hpd]
        exact (hperm.erase _).trans (eraseIdx_map_perm s.files fd hfd)
      · intro f hf
        exact hnz f (List.mem_of_mem_eraseIdx hf)
      · intro f hf
        show ((dma_proxy_release s.drv s.files[fd]).1.mem f.private_data).buf_sz ≤ MAX_BUF_SZ
        rw [hmem]
        exact hsz f (List.mem_of_mem_eraseIdx hf)
    · have : s.step (.do_close fd) = (s, - EBADF) := by
        simp [Sys.step, List.getElem?_eq_none (Nat.le_of_not_lt hfd)]
      rw [this]; exact ⟨hlen, hperm, hnz, hsz⟩

theorem exec_tracked (s : Sys) (op : DevOp) (h : s.tracked) : (s.exec op).tracked := by
  cases op with
  | file_op op => exact step_tracked s op h
  | allocate fd arg env =>
    simp only [Sys.exec]
    cases hf : s.files[fd]? with
    | none => exact h
    | some f =>
      obtain ⟨hc, hlen, hperm, hnz, hsz⟩ := h
      obtain ⟨h1, h2, h3⟩ := cbuf_fields s.drv f arg env
      refine ⟨⟨?_, hc.2⟩, ?_, ?_, hnz, ?_⟩
      · show (dma_proxy_ioctl s.drv f DMAPROXY_IOCTCBUF arg env).1.num_open = _
        rw [h1]; exact hc.1
      · show (dma_proxy_ioctl s.drv f DMAPROXY_IOCTCBUF arg env).1.instances.length = _
        rw [h2]; exact hlen
      · show List.Perm ((dma_proxy_ioctl s.drv f DMAPROXY_IOCTCBUF arg env).1.instances.filter _) _
        rw [h2]; exact hperm
      · intro g hg
        show ((dma_proxy_ioctl s.drv f DMAPROXY_IOCTCBUF arg env).1.mem g.private_data).buf_sz
          ≤ MAX_BUF_SZ
        rcases h3 g.private_data with h | h
        · rw [h]; exact hsz g hg
        · exact Nat.le_of_lt h
  | free fd arg env =>
    simp only [Sys.exec]
    cases hf : s.files[fd]? with
    | none => exact h
    | some f =>
      obtain ⟨hc, hlen, hperm, hnz, hsz⟩ := h
      obtain ⟨h1, h2, h3⟩ := rbuf_fields s.drv f arg env
      refine ⟨⟨?_, hc.2⟩, ?_, ?_, hnz, ?_⟩
      · show (dma_proxy_ioctl s.drv f DMAPROXY_IOCTRBUF arg env).1.num_open = _
        rw [h1]; exact hc.1
      · show (dma_proxy_ioctl s.drv f DMAPROXY_IOCTRBUF arg env).1.instances.length = _
        rw [h2]; exact hlen
      · show List.Perm ((dma_proxy_ioctl s.drv f DMAPROXY_IOCTRBUF arg env).1.instances.filter _) _
        rw [h2]; exact hperm
      · intro g hg
        show ((dma_proxy_ioctl s.drv f DMAPROXY_IOCTRBUF arg env).1.mem g.private_data).buf_sz
          ≤ MAX_BUF_SZ
        rw [h3]; exact hsz g hg

theorem execs_tracked (ops : List DevOp) : ∀ s : Sys, s.tracked → (s.execs ops).tracked := by
  induction ops with
  | nil => intro s h; exact h
  | cons op ops ih =>
    intro s h
    exact ih _ (exec_tracked s op h)

theorem live_after_append (a b : List Event) :
    ∀ ls, live_after ls (a ++ b) = live_after (live_after ls a) b := by
  induction a with
  | nil => intro ls; rfl
  | cons e es ih =>
    intro ls
    cases e <;> simp [live_after, ih]

theorem live_after_quiet (es : List Event) :
    ∀ ls, (∀ e ∈ es, e.quiet = true) → live_after ls es = ls := by
  induction es with
  | nil => intro ls _; rfl
  | cons e es ih =>
    intro ls h
    have he := h e (by simp)
    have hes : ∀ x ∈ es, x.quiet = true := fun x hx => h x (by simp [hx])
    cases e <;> simp [Event.quiet] at he <;> simp [live_after, ih _ hes]

theorem live_append_quiet (log es : List Event) (h : ∀ e ∈ es, e.quiet = true) :
    live (log ++ es) = live log := by
  simp only [live]
  rw [live_after_append, live_after_quiet es _ h]

theorem reads_quiet (a : Nat) (rs : List Nat) :
    ∀ e ∈ rs.map (Event.ioread32 a), e.quiet = true := by
  intro e he
  obtain ⟨x, _, hx⟩ := List.mem_map.mp he
  rw [← hx]; rfl

theorem ioctl_start_eq (d : Driver) (f : file) (arg : UserArg) (env : Env) :
    dma_proxy_ioctl d f DMAPROXY_IOCTSTART arg env = ioctl_start d f arg env := by
  have h1 : ¬ (DMAPROXY_IOCTSTART = DMAPROXY_IOCTCBUF) := by decide
  have h2 : ¬ (DMAPROXY_IOCTSTART = DMAPROXY_IOCTRBUF) := by decide
  simp [dma_proxy_ioctl, h1, h2]

theorem ioctl_rxsync_eq (d : Driver) (f : file) (arg : UserArg) (env : Env) :
    dma_proxy_ioctl d f DMAPROXY_IOCTRXSYNC arg env = ioctl_rxsync d f := by
  have h1 : ¬ (DMAPROXY_IOCTRXSYNC = DMAPROXY_IOCTCBUF) := by decide
  have h2 : ¬ (DMAPROXY_IOCTRXSYNC = DMAPROXY_IOCTRBUF) := by decide
  have h3 : ¬ (DMAPROXY_IOCTRXSYNC = DMAPROXY_IOCTSTART) := by decide
  simp [dma_proxy_ioctl, h1, h2, h3]

/-- A start ioctl either leaves the state alone without returning 0, or takes
the free hardware mutex and creates no thread, or takes it and ends with the
creation of the thread. -/
theorem start_cases (d : Driver) (filep : file) (arg : UserArg) (env : Env) :
    ((dma_proxy_ioctl d filep DMAPROXY_IOCTSTART arg env).1 = d
      ∧ (dma_proxy_ioctl d filep DMAPROXY_IOCTSTART arg env).2 ≠ .ret 0)
    ∨ (d.ip_info.hw_lock = false
      ∧ (dma_proxy_ioctl d filep DMAPROXY_IOCTSTART arg env).2 ≠ .ret 0
      ∧ ∃ es : List Event,
          (dma_proxy_ioctl d filep DMAPROXY_IOCTSTART arg env).1.log = d.log ++ es
          ∧ ∀ e ∈ es, e.quiet = true)
    ∨ (d.ip_info.hw_lock = false
      ∧ (dma_proxy_ioctl d filep DMAPROXY_IOCTSTART arg env).2 = .ret 0
      ∧ (dma_proxy_ioctl d filep DMAPROXY_IOCTSTART arg env).1.ip_info.hw_lock = true
      ∧ (dma_proxy_ioctl d filep DMAPROXY_IOCTSTART arg env).1.sync_rx_thread = env.task
      ∧ ∃ es : List Event,
          (dma_proxy_ioctl d filep DMAPROXY_IOCTSTART arg env).1.log
            = d.log ++ es ++ [Event.kthread_run
                { hw_lock := .hw_lock, instp := filep.private_data,
                  axi_addr := d.ip_info.base_addr }]
          ∧ ∀ e ∈ es, e.quiet = true) := by
  cases arg with
  | null => left; rw [ioctl_start_eq]; simp [ioctl_start, EINVAL]
  | fault => left; rw [ioctl_start_eq]; simp [ioctl_start, EIO]
  | ptr sz =>
    by_cases hsess : filep.private_data ≠ 0 ∧ sz < MAX_BUF_SZ
    swap
    · left; rw [ioctl_start_eq]; simp [ioctl_start, hsess, EINVAL]
    by_cases hbuf : (d.mem filep.private_data).dma_buf_phys = 0
        ∨ (d.mem filep.private_data).dma_buf_virt = 0
        ∨ (d.mem filep.private_data).buf_sz < sz
    · left
      rw [ioctl_start_rejects d filep sz env hbuf]
      simp [EINVAL]
    simp only [not_or, not_lt] at hbuf
    obtain ⟨hp, hv, hsz⟩ := hbuf
    cases hfree : d.ip_info.hw_lock with
    | true =>
      left
      rw [ioctl_start_eq]
      simp [ioctl_start, hsess, hp, hv, Nat.not_lt.mpr hsz, mutex_lock, mutex_is_locked, hfree]
    | false =>
      right
      by_cases hbase : d.ip_info.base_addr = 0
      · left
        rw [start_base_null d filep sz env hbase hsess.1 hp hv hsz hsess.2 hfree]
        refine ⟨rfl, by simp, [.mutex_lock .hw_lock], rfl, ?_⟩
        intro e he
        simp only [List.mem_singleton] at he
        rw [he]; rfl
      have hun := start_unfold d filep sz env hbase hsess.1 hp hv hsz hsess.2 hfree
      have hsetup : ∀ e ∈ start_setup d.ip_info.base_addr
          ((d.mem filep.private_data).dma_buf_phys % 2 ^ 32) sz, e.quiet = true := by
        intro e he
        simp only [start_setup, List.mem_cons, List.mem_singleton, List.not_mem_nil,
          or_false] at he
        rcases he with h | h | h | h | h | h | h <;> rw [h] <;> rfl
      obtain ⟨rs, h1, h2⟩ := sync_tx_shape
        (d.hw_taken.emits (start_setup d.ip_info.base_addr
          ((d.mem filep.private_data).dma_buf_phys % 2 ^ 32) sz))
        d.ip_info.base_addr hbase env.mm2s_status
      rw [hun]
      generalize axi_dma_sync_tx _ _ _ = res at h1 h2
      obtain ⟨d1, o⟩ := res
      simp only at h1 h2
      subst h1
      have hquiet : ∀ e ∈ start_setup d.ip_info.base_addr
            ((d.mem filep.private_data).dma_buf_phys % 2 ^ 32) sz
          ++ rs.map (Event.ioread32 (d.ip_info.base_addr + AXI_MM2S_DMASR)), e.quiet = true := by
        intro e he
        rcases List.mem_append.mp he with he | he
        · exact hsetup e he
        · exact reads_quiet _ rs e he
      rcases h2 with h2 | h2
      · subst h2
        simp only [start_spawn]
        cases hk : env.kzalloc_sync with
        | false =>
          left
          refine ⟨trivial, by simp, _, ?_, hquiet⟩
          simp [Driver.emits, Driver.hw_taken]
        | true =>
          cases ht : IS_ERR env.task with
          | true =>
            left
            refine ⟨trivial, ?_, (start_setup d.ip_info.base_addr
                ((d.mem filep.private_data).dma_buf_phys % 2 ^ 32) sz
              ++ rs.map (Event.ioread32 (d.ip_info.base_addr + AXI_MM2S_DMASR)))
              ++ [.mutex_unlock .hw_lock], ?_, ?_⟩
            · simp only [ht, if_true]
              intro hret
              simp only [Outcome.ret.injEq] at hret
              exact PTR_ERR_ne_zero _ ht hret
            · simp [ht, mutex_unlock, mutex_set, Driver.emit, Driver.emits, Driver.hw_taken]
            · intro e he
              rcases List.mem_append.mp he with he | he
              · exact hquiet e he
              · simp only [List.mem_singleton] at he
                rw [he]; rfl
          | false =>
            right
            refine ⟨trivial, by simp [ht], by simp [ht, Driver.emit, Driver.emits, Driver.hw_taken],
              by simp [ht, Driver.emit, Driver.emits, Driver.hw_taken], _, ?_, hquiet⟩
            simp [ht, Driver.emit, Driver.emits, Driver.hw_taken]
      · subst h2
        left
        refine ⟨rfl, by simp, _, ?_, hquiet⟩
        simp [Driver.emits, Driver.hw_taken]

/-- A receive-sync ioctl leaves the hardware mutex alone; it creates no thread and frees no
thread argument. -/
theorem rxsync_cases (d : Driver) (filep : file) (arg : UserArg) (env : Env) :
    (dma_proxy_ioctl d filep DMAPROXY_IOCTRXSYNC arg env).1.ip_info = d.ip_info
    ∧ ∃ es : List Event,
        (dma_proxy_ioctl d filep DMAPROXY_IOCTRXSYNC arg env).1.log = d.log ++ es
        ∧ ∀ e ∈ es, e.quiet = true := by
  rw [ioctl_rxsync_eq]
  by_cases hpd : filep.private_data ≠ 0
  swap
  · have hres : ioctl_rxsync d filep = (d, .ret (- EINVAL)) := by
      simp [ioctl_rxsync, hpd]
    rw [hres]
    exact ⟨rfl, [], by simp, by simp⟩
  cases hl : (d.mem filep.private_data).rx_lock with
  | true =>
    have hres : ioctl_rxsync d filep = (d, .blocked (.rx_lock filep.private_data)) := by
      simp [ioctl_rxsync, hpd, mutex_lock, mutex_is_locked, hl]
    rw [hres]
    exact ⟨rfl, [], by simp, by simp⟩
  | false =>
    have hquiet : ∀ e ∈ [Event.mutex_lock (.rx_lock filep.private_data),
        Event.mutex_unlock (.rx_lock filep.private_data),
        Event.kthread_stop d.sync_rx_thread], e.quiet = true := by
      intro e he
      simp only [List.mem_cons, List.mem_singleton, List.not_mem_nil, or_false] at he
      rcases he with h | h | h <;> rw [h] <;> rfl
    by_cases ht : d.sync_rx_thread = 0
    · have hres : (ioctl_rxsync d filep).1.ip_info = d.ip_info
          ∧ (ioctl_rxsync d filep).1.log
            = d.log ++ [Event.mutex_lock (.rx_lock filep.private_data),
                Event.mutex_unlock (.rx_lock filep.private_data)] := by
        simp [ioctl_rxsync, hpd, mutex_lock, mutex_is_locked, hl, mutex_unlock, mutex_set,
          Driver.emit, Driver.store, ht]
      refine ⟨hres.1, _, hres.2, ?_⟩
      intro e he
      exact hquiet e (by
        simp only [List.mem_cons, List.mem_singleton, List.not_mem_nil, or_false] at he ⊢
        rcases he with h | h
        · exact Or.inl h
        · exact Or.inr (Or.inl h))
    · have hres : (ioctl_rxsync d filep).1.ip_info = d.ip_info
          ∧ (ioctl_rxsync d filep).1.log
            = d.log ++ [Event.mutex_lock (.rx_lock filep.private_data),
                Event.mutex_unlock (.rx_lock filep.private_data),
                Event.kthread_stop d.sync_rx_thread] := by
        simp [ioctl_rxsync, hpd, mutex_lock, mutex_is_locked, hl, mutex_unlock, mutex_set,
          Driver.emit, Driver.store, ht]
      exact ⟨hres.1, _, hres.2, hquiet⟩

theorem sync_rx_loop_cases (sync : rx_sync_dat) (stops : List Bool) :
    ∀ (d : Driver) (v : Nat) (status : List Nat),
      (∃ rs : List Nat, (sync_rx_loop sync d v status stops).1
          = d.emits (rs.map (Event.ioread32 (sync.axi_addr + AXI_S2MM_DMASR))))
      ∨ (∃ rs : List Nat, (sync_rx_loop sync d v status stops).1.log
          = d.log ++ rs.map (Event.ioread32 (sync.axi_addr + AXI_S2MM_DMASR))
            ++ [.mutex_unlock sync.hw_lock, .mutex_unlock (.rx_lock sync.instp),
                .kzfree_sync sync]) := by
  induction stops with
  | nil =>
    intro d v status
    by_cases hv : rx_busy v = true
    · left
      exact ⟨[], by simp [sync_rx_loop, hv, emits_nil]⟩
    · right
      refine ⟨[], ?_⟩
      simp only [sync_rx_loop, hv, if_false, List.map_nil, List.append_nil]
      exact (finish_log d sync []).1
  | cons stop stops ih =>
    intro d v status
    by_cases hv : rx_busy v = true
    swap
    · right
      refine ⟨[], ?_⟩
      simp only [sync_rx_loop, hv, if_false, List.map_nil, List.append_nil]
      exact (finish_log d sync _).1
    cases stop with
    | true =>
      right
      refine ⟨[], ?_⟩
      simp only [sync_rx_loop, hv, if_true, List.map_nil, List.append_nil]
      exact (finish_log d sync _).1
    | false =>
      by_cases ha : sync.axi_addr = 0
      · have hstep : sync_rx_loop sync d v status (false :: stops)
            = sync_rx_loop sync d 0 status stops := by
          cases status <;> simp [sync_rx_loop, hv, ha, reg_rd]
        rw [hstep]
        exact ih d 0 status
      · cases status with
        | nil =>
          left
          refine ⟨[], ?_⟩
          simp [sync_rx_loop, hv, ha, emits_nil]
        | cons hw st =>
          rw [sync_rx_loop_step sync ha d v hw st stops hv]
          rcases ih (d.emits [.ioread32 (sync.axi_addr + AXI_S2MM_DMASR) hw]) hw st with
            ⟨rs, h⟩ | ⟨rs, h⟩
          · left
            refine ⟨hw :: rs, ?_⟩
            rw [h, emits_emits]
            simp
          · right
            refine ⟨hw :: rs, ?_⟩
            rw [h]
            simp [Driver.emits]

/-- A run of the receive thread either only reads the status register (it is
still polling), or reads it and then unlocks the two mutexes and frees its
argument. -/
theorem sync_rx_cases (d : Driver) (sync : rx_sync_dat) (status : List Nat)
    (stops : List Bool) :
    (∃ rs : List Nat, (axi_dma_sync_rx d (some sync) status stops).1
        = d.emits (rs.map (Event.ioread32 (sync.axi_addr + AXI_S2MM_DMASR))))
    ∨ (∃ rs : List Nat, (axi_dma_sync_rx d (some sync) status stops).1.log
        = d.log ++ rs.map (Event.ioread32 (sync.axi_addr + AXI_S2MM_DMASR))
          ++ [.mutex_unlock sync.hw_lock, .mutex_unlock (.rx_lock sync.instp),
              .kzfree_sync sync]) := by
  by_cases ha : sync.axi_addr = 0
  · have hrun : axi_dma_sync_rx d (some sync) status stops
        = sync_rx_loop sync d 0 status stops := by
      simp [axi_dma_sync_rx, ha, reg_rd]
    rw [hrun]
    exact sync_rx_loop_cases sync stops d 0 status
  · cases status with
    | nil =>
      left
      exact ⟨[], by simp [axi_dma_sync_rx, ha, emits_nil]⟩
    | cons hw st =>
      have hrun : axi_dma_sync_rx d (some sync) (hw :: st) stops
          = sync_rx_loop sync (d.emits [.ioread32 (sync.axi_addr + AXI_S2MM_DMASR) hw]) hw st
              stops := by
        simp [axi_dma_sync_rx, ha, reg_rd_eq _ _ _ _ ha]
      rw [hrun]
      rcases sync_rx_loop_cases sync stops
          (d.emits [.ioread32 (sync.axi_addr + AXI_S2MM_DMASR) hw]) hw st with ⟨rs, h⟩ | ⟨rs, h⟩
      · left
        refine ⟨hw :: rs, ?_⟩
        rw [h, emits_emits]
        simp
      · right
        refine ⟨hw :: rs, ?_⟩
        rw [h]
        simp [Driver.emits]

theorem act_exclusive (d : Driver) (a : Act) (h : d.exclusive) : (d.act a).exclusive := by
  obtain ⟨hlen, hheld⟩ := h
  cases a with
  | start filep arg env =>
    simp only [Driver.act]
    rcases start_cases d filep arg env with ⟨h1, _⟩ | ⟨hfree, _, es, hlog, hq⟩
        | ⟨hfree, _, hl, _, es, hlog, hq⟩
    · rw [h1]; exact ⟨hlen, hheld⟩
    · have hnil : live d.log = [] := by
        by_contra hne
        rw [hheld hne] at hfree
        cases hfree
      have : live (dma_proxy_ioctl d filep DMAPROXY_IOCTSTART arg env).1.log = [] := by
        rw [hlog, live_append_quiet _ _ hq, hnil]
      exact ⟨by rw [this]; simp, fun hne => absurd this hne⟩
    · have hnil : live d.log = [] := by
        by_contra hne
        rw [hheld hne] at hfree
        cases hfree
      have : live (dma_proxy_ioctl d filep DMAPROXY_IOCTSTART arg env).1.log
          = [{ hw_lock := .hw_lock, instp := filep.private_data,
               axi_addr := d.ip_info.base_addr }] := by
        rw [hlog]
        simp only [live] at hnil ⊢
        rw [live_after_append, live_after_append, hnil, live_after_quiet es _ hq]
        rfl
      exact ⟨by rw [this]; simp, fun _ => hl⟩
  | wait filep arg env =>
    simp only [Driver.act]
    obtain ⟨hip, es, hlog, hq⟩ := rxsync_cases d filep arg env
    have : live (dma_proxy_ioctl d filep DMAPROXY_IOCTRXSYNC arg env).1.log = live d.log := by
      rw [hlog, live_append_quiet _ _ hq]
    exact ⟨by rw [this]; exact hlen, fun hne => by rw [hip]; exact hheld (by rwa [this] at hne)⟩
  | sync data status stops =>
    simp only [Driver.act]
    by_cases hmem : data ∈ live d.log
    swap
    · rw [if_neg hmem]; exact ⟨hlen, hheld⟩
    rw [if_pos hmem]
    have hone : live d.log = [data] := by
      cases hl : live d.log with
      | nil => rw [hl] at hmem; cases hmem
      | cons x xs =>
        rw [hl] at hmem hlen
        have hxs : xs = [] := by
          cases xs with
          | nil => rfl
          | cons y ys => simp at hlen
        subst hxs
        simp only [List.mem_singleton] at hmem
        rw [hmem]
    rcases sync_rx_cases d data status stops with ⟨rs, h⟩ | ⟨rs, h⟩
    · rw [h]
      have : live (d.emits (rs.map (Event.ioread32 (data.axi_addr + AXI_S2MM_DMASR)))).log
          = live d.log := live_append_quiet _ _ (reads_quiet _ rs)
      exact ⟨by rw [this]; exact hlen, fun hne => hheld (by rwa [this] at hne)⟩
    · have : live (axi_dma_sync_rx d (some data) status stops).1.log = [] := by
        rw [h]
        simp only [live] at hone ⊢
        rw [live_after_append, live_after_append, hone,
          live_after_quiet _ _ (reads_quiet _ rs)]
        simp [live_after]
      exact ⟨by rw [this]; simp, fun hne => absurd this hne⟩

theorem acts_exclusive (steps : List Act) : ∀ d : Driver, d.exclusive → (d.acts steps).exclusive := by
  induction steps with
  | nil => intro d h; exact h
  | cons a steps ih =>
    intro d h
    exact ih _ (act_exclusive d a h)

/-! ## C12 -/

/-- C12, the code on a freshly opened session on which no start was issued
(completion lock free, the recorded thread handle null): the receive-sync ioctl
takes and releases the completion lock without blocking, then hands the null
handle to `kthread_stop`, which dereferences it; the call does not return. -/
theorem rxsync_before_start_oopses :
    fresh.sync_rx_thread = 0
    ∧ (fresh.mem 0xC0001000).rx_lock = false
    ∧ (dma_proxy_ioctl fresh ⟨0xC0001000⟩ DMAPROXY_IOCTRXSYNC .null demo_env).2 = .oops
    ∧ (dma_proxy_ioctl fresh ⟨0xC0001000⟩ DMAPROXY_IOCTRXSYNC .null demo_env).1.log
        = fresh.log ++ [.mutex_lock (.rx_lock 0xC0001000), .mutex_unlock (.rx_lock 0xC0001000)] := by
  decide

/-! ## C13 -/

/-- C13: with a non-null engine handle, `axi_dma_sync_tx` reads the transmit
status 0x04 once per supplied value up to and including the first one with bits
1 and 12 set and returns 0 right after it, whatever values follow; as long as
every value read lacks one of the two bits it has not returned; and none of its
events is a register write. -/
theorem sync_tx_returns_at_first_complete_status (d : Driver) (axi_addr : Ptr)
    (status : List Nat) (ha : axi_addr ≠ 0) :
    (∀ pre v post, status = pre ++ v :: post →
        (∀ x ∈ pre, ¬ (x.testBit 1 = true ∧ x.testBit 12 = true)) →
        (v.testBit 1 = true ∧ v.testBit 12 = true) →
        axi_dma_sync_tx d axi_addr status
          = (d.emits ((pre ++ [v]).map (Event.ioread32 (axi_addr + 0x04))), .ret 0))
    ∧ ((∀ x ∈ status, ¬ (x.testBit 1 = true ∧ x.testBit 12 = true)) →
        axi_dma_sync_tx d axi_addr status
          = (d.emits (status.map (Event.ioread32 (axi_addr + 0x04))), .spinning))
    ∧ (∀ e ∈ (axi_dma_sync_tx d axi_addr status).1.log.drop d.log.length,
        ∀ val addr, e ≠ Event.iowrite32 val addr) := by
  have busy : ∀ x : Nat, ¬ (x.testBit 1 = true ∧ x.testBit 12 = true) → tx_busy x = true := by
    intro x hx
    rw [tx_busy_eq]
    cases h1 : x.testBit 1 <;> cases h12 : x.testBit 12 <;> simp_all
  refine ⟨?_, ?_, ?_⟩
  · intro pre v post hst hpre hv
    have hv' : tx_busy v = false := by rw [tx_busy_eq]; simp [hv.1, hv.2]
    rw [hst, sync_tx_done d axi_addr ha pre v post (fun x hx => busy x (hpre x hx)) hv']
    rfl
  · intro hall
    rw [sync_tx_busy d axi_addr ha status (fun x hx => busy x (hall x hx))]
    rfl
  · obtain ⟨rs, h1, _⟩ := sync_tx_shape d axi_addr ha status
    rw [h1]
    intro e he val addr
    simp only [Driver.emits, List.drop_left] at he
    obtain ⟨x, _, hx⟩ := List.mem_map.mp he
    rw [← hx]
    simp

/-- C13 on five status values, the fourth being the first complete one. -/
theorem sync_tx_returns_at_first_complete_status_witness :
    axi_dma_sync_tx (demo 0x40400000) 0x40400000 [0, 2, 0x1000, 0x1002, 7]
      = ((demo 0x40400000).emits
          [.ioread32 0x40400004 0, .ioread32 0x40400004 2, .ioread32 0x40400004 0x1000,
           .ioread32 0x40400004 0x1002], .ret 0) :=
  (sync_tx_returns_at_first_complete_status (demo 0x40400000) 0x40400000
    [0, 2, 0x1000, 0x1002, 7] (by decide)).1 [0, 2, 0x1000] 0x1002 [7] rfl (by decide) (by decide)

/-! ## C14 -/

/-- C14: for a source address `src` of 32 bits, `axi_dma_setup_tx` returns
`-EINVAL` exactly when the handle is null or `src` is 0, and then leaves the
state as it was (no register write); otherwise it returns 0 and its events are
exactly the write of `src` to 0x18 followed by the write of 0x7001 to 0x00, and
0x7001 has exactly the bits 0, 12, 13 and 14 set. -/
theorem setup_tx_contract (d : Driver) (axi_addr : Ptr) (src : Nat) (hsrc : src < 2 ^ 32) :
    ((axi_dma_setup_tx d axi_addr src).2 = - EINVAL ↔ (axi_addr = 0 ∨ src = 0))
    ∧ ((axi_addr = 0 ∨ src = 0) → axi_dma_setup_tx d axi_addr src = (d, - EINVAL))
    ∧ (¬ (axi_addr = 0 ∨ src = 0) →
        axi_dma_setup_tx d axi_addr src
          = (d.emits [.iowrite32 src (axi_addr + 0x18), .iowrite32 0x7001 (axi_addr + 0x00)], 0))
    ∧ (∀ i : Nat, Nat.testBit 0x7001 i = true ↔ (i = 0 ∨ i = 12 ∨ i = 13 ∨ i = 14)) := by
  have hm : src % 4294967296 = src := Nat.mod_eq_of_lt hsrc
  have hfail : (axi_addr = 0 ∨ src = 0) → axi_dma_setup_tx d axi_addr src = (d, - EINVAL) := by
    intro h
    simp [axi_dma_setup_tx, h]
  have hok : ¬ (axi_addr = 0 ∨ src = 0) →
      axi_dma_setup_tx d axi_addr src
        = (d.emits [.iowrite32 src (axi_addr + 0x18), .iowrite32 0x7001 (axi_addr + 0x00)], 0) := by
    intro h
    have ha : axi_addr ≠ 0 := fun h0 => h (Or.inl h0)
    have hs : src ≠ 0 := fun h0 => h (Or.inr h0)
    simp [axi_dma_setup_tx, hs, reg_wr, ha, Driver.emit, Driver.emits, hm, AXI_MM2S_SA,
      AXI_MM2S_DMACR, AXI_MM2S_DMACR_RS, AXI_MM2S_DMACR_IOC_IrqEn, AXI_MM2S_DMACR_Dly_IrqEn,
      AXI_MM2S_DMACR_Err_IrqEn]
  refine ⟨⟨?_, fun h => by rw [hfail h]⟩, hfail, hok, ctrl_value_bits⟩
  intro hret
  by_contra h
  rw [hok h] at hret
  simp [EINVAL] at hret

/-- C14 at the sample engine and buffer address. -/
theorem setup_tx_contract_witness :
    axi_dma_setup_tx (demo 0x40400000) 0x40400000 0x1F000000
      = ((demo 0x40400000).emits
          [.iowrite32 0x1F000000 0x40400018, .iowrite32 0x7001 0x40400000], 0) :=
  (setup_tx_contract (demo 0x40400000) 0x40400000 0x1F000000 (by decide)).2.2.1 (by decide)

/-! ## C15 -/

/-- C15: for a destination address `dest` of 32 bits, `axi_dma_setup_rx` returns
`-EINVAL` exactly when the handle is null or `dest` is 0, and then leaves the
state as it was (no register write); otherwise it returns 0 and its events are
exactly the write of `dest` to 0x48, of 0x7001 (bits 0, 12, 13, 14) to 0x30, and
of the length truncated to 32 bits to 0x58, in this order. -/
theorem setup_rx_contract (d : Driver) (axi_addr : Ptr) (dest sz : Nat) (hdest : dest < 2 ^ 32) :
    ((axi_dma_setup_rx d axi_addr dest sz).2 = - EINVAL ↔ (axi_addr = 0 ∨ dest = 0))
    ∧ ((axi_addr = 0 ∨ dest = 0) → axi_dma_setup_rx d axi_addr dest sz = (d, - EINVAL))
    ∧ (¬ (axi_addr = 0 ∨ dest = 0) →
        axi_dma_setup_rx d axi_addr dest sz
          = (d.emits [.iowrite32 dest (axi_addr + 0x48), .iowrite32 0x7001 (axi_addr + 0x30),
              .iowrite32 (sz % 2 ^ 32) (axi_addr + 0x58)], 0))
    ∧ (∀ i : Nat, Nat.testBit 0x7001 i = true ↔ (i = 0 ∨ i = 12 ∨ i = 13 ∨ i = 14)) := by
  have hm : dest % 4294967296 = dest := Nat.mod_eq_of_lt hdest
  have hfail : (axi_addr = 0 ∨ dest = 0) → axi_dma_setup_rx d axi_addr dest sz = (d, - EINVAL) := by
    intro h
    simp [axi_dma_setup_rx, h]
  have hok : ¬ (axi_addr = 0 ∨ dest = 0) →
      axi_dma_setup_rx d axi_addr dest sz
        = (d.emits [.iowrite32 dest (axi_addr + 0x48), .iowrite32 0x7001 (axi_addr + 0x30),
            .iowrite32 (sz % 2 ^ 32) (axi_addr + 0x58)], 0) := by
    intro h
    have ha : axi_addr ≠ 0 := fun h0 => h (Or.inl h0)
    have hs : dest ≠ 0 := fun h0 => h (Or.inr h0)
    simp [axi_dma_setup_rx, hs, reg_wr, ha, Driver.emit, Driver.emits, hm, AXI_S2MM_DA,
      AXI_S2MM_DMACR, AXI_S2MM_DMACR_RS, AXI_S2MM_DMACR_IOC_IRqEn, AXI_S2MM_DMACR_Dly_IrqEn,
      AXI_S2MM_DMACR_Err_IrqEn, AXI_S2MM_LENGTH]
  refine ⟨⟨?_, fun h => by rw [hfail h]⟩, hfail, hok, ctrl_value_bits⟩
  intro hret
  by_contra h
  rw [hok h] at hret
  simp [EINVAL] at hret

/-- C15 at the sample engine and buffer address. -/
theorem setup_rx_contract_witness :
    axi_dma_setup_rx (demo 0x40400000) 0x40400000 0x1F000000 4096
      = ((demo 0x40400000).emits
          [.iowrite32 0x1F000000 0x40400048, .iowrite32 0x7001 0x40400030,
           .iowrite32 4096 0x40400058], 0) :=
  (setup_rx_contract (demo 0x40400000) 0x40400000 0x1F000000 4096 (by decide)).2.2.1 (by decide)

/-! ## C16 -/

/-- C16, the code when the coherent allocator has no memory: on a bufferless
session `dma_alloc_coherent` returns `NULL`, which `IS_ERR` does not recognise,
and the allocate ioctl records the size and returns 0. -/
theorem allocate_succeeds_without_memory :
    (fresh.mem 0xC0001000).dma_buf_virt = 0
    ∧ (dma_proxy_ioctl fresh ⟨0xC0001000⟩ DMAPROXY_IOCTCBUF (.ptr 4096) nomem_env).2 = .ret 0
    ∧ (dma_proxy_ioctl fresh ⟨0xC0001000⟩ DMAPROXY_IOCTCBUF (.ptr 4096) nomem_env).1.mem 0xC0001000
        = { buf_sz := 4096, dma_buf_phys := 0, dma_buf_virt := 0, rx_lock := false }
    ∧ (dma_proxy_ioctl fresh ⟨0xC0001000⟩ DMAPROXY_IOCTCBUF (.ptr 4096) nomem_env).1.log
        = fresh.log ++ [.dma_alloc_coherent 4096 0 0] := by
  decide

/-! ## C17 -/

/-- C17, the code after a successful start: the thread argument naming the
session is live, and the completion lock of the session is free; the start has
issued no `mutex_lock` on any completion lock. -/
theorem start_leaves_rx_lock_free :
    (dma_proxy_ioctl (demo 0x40400000) ⟨0xC0001000⟩ DMAPROXY_IOCTSTART (.ptr 4096) demo_env).2
        = .ret 0
    ∧ live (dma_proxy_ioctl (demo 0x40400000) ⟨0xC0001000⟩ DMAPROXY_IOCTSTART (.ptr 4096)
          demo_env).1.log
        = [{ hw_lock := .hw_lock, instp := 0xC0001000, axi_addr := 0x40400000 }]
    ∧ ((dma_proxy_ioctl (demo 0x40400000) ⟨0xC0001000⟩ DMAPROXY_IOCTSTART (.ptr 4096)
          demo_env).1.mem 0xC0001000).rx_lock = false
    ∧ (∀ p, Event.mutex_lock (.rx_lock p)
          ∉ (dma_proxy_ioctl (demo 0x40400000) ⟨0xC0001000⟩ DMAPROXY_IOCTSTART (.ptr 4096)
              demo_env).1.log) := by
  refine ⟨by decide, by decide, by decide, ?_⟩
  intro p
  have h : (dma_proxy_ioctl (demo 0x40400000) ⟨0xC0001000⟩ DMAPROXY_IOCTSTART (.ptr 4096)
      demo_env).1.log
      = [Event.mutex_lock .hw_lock,
         .iowrite32 0x1F000000 0x40400018, .iowrite32 0x7001 0x40400000,
         .iowrite32 0x1F000000 0x40400048, .iowrite32 0x7001 0x40400030,
         .iowrite32 4096 0x40400058, .iowrite32 4096 0x40400028,
         .ioread32 0x40400004 0, .ioread32 0x40400004 2, .ioread32 0x40400004 0x1002,
         .kthread_run { hw_lock := .hw_lock, instp := 0xC0001000, axi_addr := 0x40400000 }] := by
    decide
  rw [h]
  simp

/-! ## C18 -/

/-- C18 as stated fails: after a start of one session, the completion seen by
its thread and a start of another session, two threads have been created and
none has been asked to stop; the first is still in its final loop, the second
start has returned 0, and the recorded handle is that of the second thread. -/
theorem second_synchronizer_spawned_before_stop :
    spawned ((demo2 0x40400000).acts two_starts).log = 2
    ∧ stop_requests ((demo2 0x40400000).acts two_starts).log = 0
    ∧ (axi_dma_sync_rx ((demo2 0x40400000).acts (two_starts.take 1))
        (some { hw_lock := .hw_lock, instp := 0xC0001000, axi_addr := 0x40400000 })
        [0x1002] [false]).2 = .spinning
    ∧ (dma_proxy_ioctl ((demo2 0x40400000).acts (two_starts.take 2)) ⟨0xC0002000⟩
        DMAPROXY_IOCTSTART (.ptr 4096) demo_env2).2 = .ret 0
    ∧ ((demo2 0x40400000).acts two_starts).sync_rx_thread = 0xC1100000 := by
  decide

/-- C18 amended: in every state reached from one without a live thread argument
by start ioctls, receive-sync ioctls and runs of the threads, at most one thread
has not yet released the hardware mutex, and while there is one the mutex is
held and a start ioctl changes nothing and does not return 0; a start that
returns 0 leaves exactly the argument of the thread it has created live. -/
theorem one_synchronizer_holds_the_engine (d0 : Driver) (h0 : live d0.log = [])
    (steps : List Act) :
    (live (d0.acts steps).log).length ≤ 1
    ∧ (live (d0.acts steps).log ≠ [] → (d0.acts steps).ip_info.hw_lock = true)
    ∧ (∀ filep arg env, live (d0.acts steps).log ≠ [] →
        (dma_proxy_ioctl (d0.acts steps) filep DMAPROXY_IOCTSTART arg env).1 = d0.acts steps
        ∧ (dma_proxy_ioctl (d0.acts steps) filep DMAPROXY_IOCTSTART arg env).2 ≠ .ret 0)
    ∧ (∀ filep arg env,
        (dma_proxy_ioctl (d0.acts steps) filep DMAPROXY_IOCTSTART arg env).2 = .ret 0 →
        live (dma_proxy_ioctl (d0.acts steps) filep DMAPROXY_IOCTSTART arg env).1.log
            = [{ hw_lock := .hw_lock, instp := filep.private_data,
                 axi_addr := (d0.acts steps).ip_info.base_addr }]) := by
  have hinit : d0.exclusive := ⟨by rw [h0]; simp, fun hne => absurd h0 hne⟩
  obtain ⟨hlen, hheld⟩ := acts_exclusive steps d0 hinit
  generalize d0.acts steps = d at hlen hheld
  refine ⟨hlen, hheld, ?_, ?_⟩
  · intro filep arg env hne
    rcases start_cases d filep arg env with h | ⟨hfree, _⟩ | ⟨hfree, _⟩
    · exact h
    · rw [hheld hne] at hfree; cases hfree
    · rw [hheld hne] at hfree; cases hfree
  · intro filep arg env hret
    rcases start_cases d filep arg env with ⟨_, h⟩ | ⟨_, h, _⟩ | ⟨hfree, _, _, _, es, hlog, hq⟩
    · exact absurd hret h
    · exact absurd hret h
    · have hnil : live d.log = [] := by
        by_contra hne
        rw [hheld hne] at hfree
        cases hfree
      rw [hlog]
      simp only [live] at hnil ⊢
      rw [live_after_append, live_after_append, hnil, live_after_quiet es _ hq]
      rfl

/-- C18 amended, on the two starts of the counterexample. -/
theorem one_synchronizer_holds_the_engine_witness :
    (live ((demo2 0x40400000).acts two_starts).log).length ≤ 1 :=
  (one_synchronizer_holds_the_engine (demo2 0x40400000) rfl two_starts).1

/-! ## C19 -/

/-- C19: from a state with the open counter at 0 and an instance table of
`MAX_INST` null slots, after any sequence of open, close, Allocate and Free
calls the open counter equals the number of open sessions and the number of
occupied slots of the instance table, it is at most `MAX_INST`, and the recorded
buffer length of every open session is at most `MAX_BUF_SZ`. -/
theorem session_and_buffer_bounds (d0 : Driver) (h0 : d0.num_open = 0)
    (hi : d0.instances = List.replicate MAX_INST 0) (ops : List DevOp) :
    ((Sys.boot d0).execs ops).drv.num_open = ((Sys.boot d0).execs ops).files.length
    ∧ ((Sys.boot d0).execs ops).drv.num_open = occupied ((Sys.boot d0).execs ops).drv.instances
    ∧ ((Sys.boot d0).execs ops).drv.num_open ≤ MAX_INST
    ∧ ∀ f ∈ ((Sys.boot d0).execs ops).files,
        (((Sys.boot d0).execs ops).drv.mem f.private_data).buf_sz ≤ MAX_BUF_SZ := by
  have hinit : (Sys.boot d0).tracked := by
    refine ⟨⟨by simp [Sys.boot, h0], by simp [Sys.boot]⟩, ?_, ?_, ?_, ?_⟩
    · simp [Sys.boot, hi]
    · simp [Sys.boot, hi]
    · intro f hf; simp [Sys.boot] at hf
    · intro f hf; simp [Sys.boot] at hf
  obtain ⟨hc, _, hperm, _, hsz⟩ := execs_tracked ops _ hinit
  refine ⟨hc.1, ?_, ?_, hsz⟩
  · rw [hc.1, occupied, hperm.length_eq, List.length_map]
  · rw [hc.1]; exact_mod_cast hc.2

/-- C19 on two opens, an Allocate, a Free and a close from the probed state. -/
theorem session_and_buffer_bounds_witness :
    ((Sys.boot (probed 0x40400000)).execs
        [.file_op (.do_open 0xC0001000), .allocate 0 (.ptr 4096) demo_env,
         .file_op (.do_open 0xC0002000), .free 0 .null demo_env,
         .file_op (.do_close 0)]).drv.num_open
      = occupied ((Sys.boot (probed 0x40400000)).execs
        [.file_op (.do_open 0xC0001000), .allocate 0 (.ptr 4096) demo_env,
         .file_op (.do_open 0xC0002000), .free 0 .null demo_env,
         .file_op (.do_close 0)]).drv.instances :=
  (session_and_buffer_bounds (probed 0x40400000) rfl rfl
    [.file_op (.do_open 0xC0001000), .allocate 0 (.ptr 4096) demo_env,
     .file_op (.do_open 0xC0002000), .free 0 .null demo_env,
     .file_op (.do_close 0)]).2.1

end ZyboAxiDma
